import Mathlib

/-!
Verification of the oligo-basics parsing pipeline (backend/app) against its
natural-language specification.

The development shallowly embeds the Python source:
  * `PV` models Python values (None, bool, int, float, str, list, dict,
    and attribute objects such as pydantic models).  Python floats are
    modelled as exact rationals.
  * `app/pipeline/detectors.py` — rule-based model detector.
  * `app/pipeline/registry.py` — composite model registry.
  * `app/pipeline/runner.py` — confidence-fallback and the parsing-status
    update fragment of `run`.
  * `app/parsers/normalizers.py` — cnpj/date/monetary/cep normalizers.
  * `app/normalizers/canonical.py` — canonical normalizer, field-mapping
    getters/setters, missing-field/status computation.
-/

/-- Python value universe.  `dict` models Python dicts (insertion-ordered
association lists), `obj` models attribute objects (dataclasses / pydantic
models).  Python floats are modelled as exact rationals. -/
inductive PV where
  | null
  | b (v : Bool)
  | i (n : ℤ)
  | f (q : ℚ)
  | s (v : String)
  | arr (xs : List PV)
  | dict (fs : List (String × PV))
  | obj (fs : List (String × PV))
  deriving Repr

namespace PV

/-- Structural decidable equality for `PV`. -/
def beq : PV → PV → Bool
  | null, null => true
  | b v, b w => v == w
  | i n, i m => n == m
  | f q, f r => q == r
  | s v, s w => v == w
  | arr xs, arr ys => beqList xs ys
  | dict fs, dict gs => beqFields fs gs
  | obj fs, obj gs => beqFields fs gs
  | _, _ => false
where
  beqList : List PV → List PV → Bool
    | [], [] => true
    | x :: xs, y :: ys => beq x y && beqList xs ys
    | _, _ => false
  beqFields : List (String × PV) → List (String × PV) → Bool
    | [], [] => true
    | (k, x) :: xs, (l, y) :: ys => k == l && beq x y && beqFields xs ys
    | _, _ => false

instance : BEq PV := ⟨beq⟩


/-- `d.get(key)` on an association list (first binding wins, as in a
Python dict whose keys are unique). -/
def lookup (fs : List (String × PV)) (k : String) : Option PV :=
  match fs with
  | [] => none
  | (l, v) :: rest => if l = k then some v else lookup rest k

/-- Python truthiness of a value (`bool(v)`).  Attribute objects
(dataclasses / pydantic models) are always truthy. -/
def truthy : PV → Bool
  | null => false
  | b v => v
  | i n => n != 0
  | f q => q != 0
  | s v => v ≠ ""
  | arr xs => !xs.isEmpty
  | dict fs => !fs.isEmpty
  | obj _ => true

end PV

/-- Python `a or b` for values: `b` when `a` is falsy. -/
def pyOr (a b : PV) : PV := if a.truthy then a else b

/-- Python `a or b` where `a` is an optional string (`None` and `""` are
falsy). -/
def pyOrStr (a : Option String) (b : String) : String :=
  match a with
  | some s => if s = "" then b else s
  | none => b

/-- `needle in haystack` for Python strings: contiguous-substring test
(the empty string is a substring of everything). -/
def isSubstr (needle hay : List Char) : Bool :=
  match hay with
  | [] => needle.isEmpty
  | _ :: t => needle.isPrefixOf hay || isSubstr needle t

/-- Python `needle in hay` on strings. -/
def pyIn (needle hay : String) : Bool := isSubstr needle.toList hay.toList

/-- Python `str.splitlines()`: like splitting on newline but without a
trailing empty entry for a trailing newline.  (The source never feeds the
other Python line separators such as `\r` into this path.) -/
def pySplitlines (s : String) : List String :=
  let parts := s.splitOn "\n"
  match parts.getLast? with
  | some "" => parts.dropLast
  | _ => parts

/-- Python `str.lower()` (ASCII case mapping suffices for the rule
vocabularies involved). -/
def pyLower (s : String) : String := String.mk (s.toList.map Char.toLower)

/-- Python `str.upper()`. -/
def pyUpper (s : String) : String := String.mk (s.toList.map Char.toUpper)

/-- Python `str.strip()`: drop leading and trailing whitespace. -/
def pyStrip (s : String) : String :=
  String.mk (((s.toList.dropWhile Char.isWhitespace).reverse.dropWhile
    Char.isWhitespace).reverse)

/-!  ## `app/pipeline/detectors.py` — rule-based model detector

The regex engine used for header matching (`re.search` with
`re.IGNORECASE`, where a malformed pattern raises `re.error` and is
skipped) is modelled as an oracle `reSearch : pattern → text → Option
Bool`: `none` models `re.error`, `some true` a match, `some false` no
match.  All detector theorems are proved for every such oracle. -/

/-- The `detection` dict of a model definition, with the keys read by the
detector (`keywords`, `customer_names`, `customer_cnpjs`, `header_regex`,
`required_fields`, `fallback`). -/
structure DetectionRules where
  keywords : List String := []
  customerNames : List String := []
  customerCnpjs : List String := []
  headerRegex : List String := []
  requiredFields : List String := []
  fallback : Bool := false
  deriving Repr, DecidableEq

/-- One `source`/`target`/`transform` entry of a mapping config (entries
with a missing key read as `None`). -/
structure FieldMapping where
  target : Option String := none
  source : Option String := none
  transform : Option String := none
  deriving Repr, DecidableEq

/-- The `mapping_config` dict: its `fields` and `item_fields` lists. -/
structure MappingConfig where
  fields : List FieldMapping := []
  itemFields : List FieldMapping := []
  deriving Repr, DecidableEq

/-- `ModelDefinition` from `app/pipeline/types.py`. -/
structure ModelDefinition where
  modelId : String
  label : String := ""
  parserKey : String := "legacy_workflow"
  normalizerKey : String := "legacy_passthrough"
  version : String := "1.0"
  status : String := "active"
  enabled : Bool := true
  detection : DetectionRules := {}
  mappingConfig : MappingConfig := {}
  deriving Repr, DecidableEq

/-- `ParseContext` restricted to what the detector reads: the raw text and
the `customer_cnpjs` / `cnpjs` entries of the deterministic data. -/
structure ParseContext where
  rawText : String
  customerCnpjs : List String := []
  cnpjs : List String := []
  deriving Repr, DecidableEq

/-- One structured evidence entry (`type` / `value` / `score`). -/
structure Evidence where
  type : String
  value : String
  score : ℚ
  deriving Repr, DecidableEq

/-- `ModelDetection` from `app/pipeline/types.py`. -/
structure ModelDetection where
  modelId : String
  confidence : ℚ
  reasons : List String := []
  evidence : List Evidence := []
  overridden : Bool := false
  deriving Repr, DecidableEq

/-- `[str(k).lower() for k in xs if k]` (entries are strings here, so
`str` is the identity and falsiness is emptiness). -/
def filterLower (xs : List String) : List String :=
  (xs.filter (fun k => k ≠ "")).map pyLower

/-- `[str(c) for c in xs if c]`. -/
def filterTruthy (xs : List String) : List String :=
  xs.filter (fun c => c ≠ "")

/-- `[keyword for keyword in keywords if keyword and keyword in raw_text]`. -/
def substrMatches (rawText : String) (xs : List String) : List String :=
  xs.filter (fun k => k ≠ "" && pyIn k rawText)

/-- `[cnpj for cnpj in cnpjs if cnpj and cnpj in deterministic_cnpjs]`. -/
def cnpjMatches (cnpjSet : List String) (xs : List String) : List String :=
  xs.filter (fun c => c ≠ "" && cnpjSet.contains c)

/-- The `header_matches` loop: patterns raising `re.error` are skipped. -/
def headerMatches (reSearch : String → String → Option Bool) (headerText : String)
    (xs : List String) : List String :=
  xs.filter (fun r => reSearch r headerText == some true)

/-- `_match_required_fields` (detectors.py line 117). -/
def matchRequiredFields (rawText : String) (requiredFields : List String) : List String :=
  requiredFields.filter (fun f => f ≠ "" && pyIn f rawText)

/-- A category's contribution to `score`: weight `w` once if any rule in
the category matched. -/
def catScore (w : ℕ) (ms : List String) : ℕ :=
  if ms.isEmpty then 0 else w

/-- The achieved `score` of one model (detectors.py lines 51-89). -/
def modelScore (reSearch : String → String → Option Bool)
    (rawText headerText : String) (cnpjSet : List String) (d : DetectionRules) : ℕ :=
  catScore 2 (substrMatches rawText (filterLower d.keywords))
    + catScore 2 (substrMatches rawText (filterLower d.customerNames))
    + catScore 3 (cnpjMatches cnpjSet (filterTruthy d.customerCnpjs))
    + catScore 2 (headerMatches reSearch headerText (filterTruthy d.headerRegex))
    + (matchRequiredFields rawText (filterLower d.requiredFields)).length

/-- `max_score` of one model (detectors.py lines 41-47). -/
def modelMaxScore (d : DetectionRules) : ℕ :=
  (if (filterLower d.keywords).isEmpty then 0 else 2)
    + (if (filterLower d.customerNames).isEmpty then 0 else 2)
    + (if (filterTruthy d.customerCnpjs).isEmpty then 0 else 3)
    + (if (filterTruthy d.headerRegex).isEmpty then 0 else 2)
    + (filterLower d.requiredFields).length

/-- `confidence = min(1.0, score / max(max_score, 1))` (line 94). -/
def modelConfidence (reSearch : String → String → Option Bool)
    (rawText headerText : String) (cnpjSet : List String) (d : DetectionRules) : ℚ :=
  min 1 ((modelScore reSearch rawText headerText cnpjSet d : ℚ)
    / ((max (modelMaxScore d) 1 : ℕ) : ℚ))

/-- The `reasons` list accumulated for one model, in source order. -/
def modelReasons (reSearch : String → String → Option Bool)
    (rawText headerText : String) (cnpjSet : List String) (d : DetectionRules) : List String :=
  (substrMatches rawText (filterLower d.keywords)).map (fun k => "keyword:" ++ k)
    ++ (substrMatches rawText (filterLower d.customerNames)).map (fun n => "name:" ++ n)
    ++ (cnpjMatches cnpjSet (filterTruthy d.customerCnpjs)).map (fun c => "cnpj:" ++ c)
    ++ (headerMatches reSearch headerText (filterTruthy d.headerRegex)).map
        (fun r => "header_regex:" ++ r)
    ++ (matchRequiredFields rawText (filterLower d.requiredFields)).map
        (fun f => "required_field:" ++ f)

/-- The `evidence` list accumulated for one model, in source order. -/
def modelEvidence (reSearch : String → String → Option Bool)
    (rawText headerText : String) (cnpjSet : List String) (d : DetectionRules) : List Evidence :=
  (substrMatches rawText (filterLower d.keywords)).map (fun k => ⟨"keyword", k, 2⟩)
    ++ (substrMatches rawText (filterLower d.customerNames)).map (fun n => ⟨"name", n, 2⟩)
    ++ (cnpjMatches cnpjSet (filterTruthy d.customerCnpjs)).map (fun c => ⟨"cnpj", c, 3⟩)
    ++ (headerMatches reSearch headerText (filterTruthy d.headerRegex)).map
        (fun r => ⟨"header_regex", r, 2⟩)
    ++ (matchRequiredFields rawText (filterLower d.requiredFields)).map
        (fun f => ⟨"required_field", f, 1⟩)

/-- The detector's per-model loop (detectors.py lines 26-103): `best`
keeps the first detection with strictly maximal confidence among models
with positive score, `fallbackId` the last enabled active model flagged
`fallback` or named `generic`. -/
def detectLoop (reSearch : String → String → Option Bool)
    (rawText headerText : String) (cnpjSet : List String) :
    List ModelDefinition → Option ModelDetection → Option String →
      Option ModelDetection × Option String
  | [], best, fallbackId => (best, fallbackId)
  | m :: rest, best, fallbackId =>
    if !m.enabled || m.status ≠ "active" then
      detectLoop reSearch rawText headerText cnpjSet rest best fallbackId
    else
      let fallbackId' :=
        if m.modelId = "generic" || m.detection.fallback then some m.modelId else fallbackId
      let score := modelScore reSearch rawText headerText cnpjSet m.detection
      if score ≤ 0 then
        detectLoop reSearch rawText headerText cnpjSet rest best fallbackId'
      else
        let result : ModelDetection :=
          { modelId := m.modelId
            confidence := modelConfidence reSearch rawText headerText cnpjSet m.detection
            reasons := modelReasons reSearch rawText headerText cnpjSet m.detection
            evidence := modelEvidence reSearch rawText headerText cnpjSet m.detection }
        let best' :=
          match best with
          | none => some result
          | some b => if result.confidence > b.confidence then some result else some b
        detectLoop reSearch rawText headerText cnpjSet rest best' fallbackId'

/-- `RuleBasedModelDetector.detect` (detectors.py lines 15-114). -/
def detect (reSearch : String → String → Option Bool)
    (context : ParseContext) (models : List ModelDefinition) : ModelDetection :=
  let rawText := pyLower context.rawText
  let headerText := pyLower (String.intercalate "\n" ((pySplitlines context.rawText).take 20))
  let cnpjSet := context.customerCnpjs ++ context.cnpjs
  match detectLoop reSearch rawText headerText cnpjSet models none none with
  | (some best, _) => best
  | (none, fallbackModelId) =>
    let fallbackId := pyOrStr fallbackModelId
      (match models.head? with
       | some m => m.modelId
       | none => "unknown")
    { modelId := fallbackId
      confidence := 0
      reasons := ["no_match"]
      evidence := [⟨"fallback", fallbackId, 0⟩] }

/-!  ## `app/pipeline/registry.py` — composite model registry

An underlying registry is modelled by its catalog, a list of model
definitions with pairwise-distinct ids (`InMemoryModelRegistry` /
`YamlModelRegistry` hold a dict keyed by `model_id`); its `get` is a
first-match lookup in that catalog. -/

/-- `models[model.model_id] = model` on a Python dict represented as an
insertion-ordered list of definitions keyed by `model_id`: an existing
key keeps its position and gets the new value, a new key is appended. -/
def dictInsertModel (d : List ModelDefinition) (m : ModelDefinition) : List ModelDefinition :=
  if d.any (fun x => x.modelId = m.modelId) then
    d.map (fun x => if x.modelId = m.modelId then m else x)
  else d ++ [m]

/-- `CompositeModelRegistry.list_models` (registry.py lines 173-178). -/
def compositeListModels (sources : List (List ModelDefinition)) : List ModelDefinition :=
  sources.flatten.foldl dictInsertModel []

/-- An underlying registry's `get(model_id)`. -/
def sourceGet (source : List ModelDefinition) (modelId : String) : Option ModelDefinition :=
  source.find? (fun m => m.modelId = modelId)

/-- `CompositeModelRegistry.get` (registry.py lines 180-185): first
source that yields a definition wins. -/
def compositeGet (sources : List (List ModelDefinition)) (modelId : String) :
    Option ModelDefinition :=
  sources.findSome? (fun source => sourceGet source modelId)

/-- Modelled from the spec's words, for comparison with the code: the
definition for an id under first-wins merging — the earliest occurrence
across the sources in priority order. -/
def firstWinsSpec (sources : List (List ModelDefinition)) (modelId : String) :
    Option ModelDefinition :=
  sources.flatten.find? (fun m => m.modelId = modelId)

/-- The definition for an id under last-wins merging — the latest
occurrence across the sources in priority order. -/
def lastWinsSpec (sources : List (List ModelDefinition)) (modelId : String) :
    Option ModelDefinition :=
  sources.flatten.reverse.find? (fun m => m.modelId = modelId)

/-!  ## `app/pipeline/runner.py` — confidence fallback and status update -/

/-- `PipelineRunner._resolve_model` (runner.py lines 337-344): first model
with the id, else the first model, else a `ValueError` (modelled as
`none`). -/
def resolveModel (models : List ModelDefinition) (modelId : String) : Option ModelDefinition :=
  match models.find? (fun m => m.modelId = modelId) with
  | some m => some m
  | none => models.head?

/-- `PipelineRunner._apply_confidence_fallback` (runner.py lines 268-286).
`none` models the `ValueError` raised when no models are registered. -/
def applyConfidenceFallback (threshold : ℚ) (models : List ModelDefinition)
    (detection : ModelDetection) (model : ModelDefinition) :
    Option (ModelDetection × ModelDefinition) :=
  if !detection.overridden && detection.confidence < threshold then
    match resolveModel models "generic" with
    | none => none
    | some fallback =>
      if fallback.modelId ≠ model.modelId then
        some
          ({ modelId := fallback.modelId
             confidence := detection.confidence
             reasons := detection.reasons ++ ["fallback:low_confidence"]
             evidence := detection.evidence ++ [⟨"fallback", fallback.modelId, 0⟩]
             overridden := false }, fallback)
      else some (detection, model)
  else some (detection, model)

/-- `d[key] = value` on an association-list dict: an existing key keeps
its position, a new key is appended. -/
def assocSet (fs : List (String × PV)) (k : String) (v : PV) : List (String × PV) :=
  if fs.any (fun p => p.1 = k) then fs.map (fun p => if p.1 = k then (k, v) else p)
  else fs ++ [(k, v)]

/-- `d.get(key, dflt)` on a dict value; only ever applied to dicts in the
modelled paths. -/
def pvDictGetD (v : PV) (k : String) (dflt : PV) : PV :=
  match v with
  | PV.dict fs => (PV.lookup fs k).getD dflt
  | _ => dflt

/-- `key in d` for a dict value. -/
def pvDictHasKey (v : PV) (k : String) : Bool :=
  match v with
  | PV.dict fs => fs.any (fun p => p.1 = k)
  | _ => false

/-- `d[key] = value` on a dict value (non-dicts are untouched; Python
would raise there, and the runner reaches this only with dicts). -/
def pvDictSet (v : PV) (k : String) (x : PV) : PV :=
  match v with
  | PV.dict fs => PV.dict (assocSet fs k x)
  | other => other

/-- The warning text appended by the runner on a low-confidence reroute. -/
def lowConfidenceWarning : String :=
  "Model confidence below threshold; using generic fallback"

/-- The parsing-metadata update of `PipelineRunner.run` (runner.py lines
129-137), acting on the canonical result dict `result` and the canonical
output's `warnings` list.  Python mutates the aliased `parsing` dict in
place; the functional reading below is equivalent because the `warnings`
lookup happens on a key the earlier inserts never touch. -/
def applyParsingUpdate (detection : ModelDetection) (result : List (String × PV))
    (canonicalWarnings : List String) : List (String × PV) :=
  let parsing := pyOr ((PV.lookup result "parsing").getD PV.null) (PV.dict [])
  let parsing :=
    if !pvDictHasKey parsing "confidence" then
      pvDictSet parsing "confidence" (PV.f detection.confidence)
    else parsing
  if detection.reasons.contains "fallback:low_confidence" then
    let parsing := pvDictSet parsing "status" (PV.s "partial")
    let warnings :=
      pyOr (pyOr (pvDictGetD (pvDictGetD (PV.dict result) "parsing" (PV.dict [])) "warnings" PV.null)
          (PV.arr (canonicalWarnings.map PV.s)))
        (PV.arr [])
    let warnings :=
      match warnings with
      | PV.arr xs => PV.arr (xs ++ [PV.s lowConfidenceWarning])
      | wv => wv
    let parsing := pvDictSet parsing "warnings" warnings
    assocSet result "parsing" parsing
  else assocSet result "parsing" parsing

/-!  ## `app/parsers/normalizers.py` — field normalizers

Python floats are modelled as exact rationals; `float(str)` is modelled
by `parseFloatQ` below (decimal and exponent forms; the `inf`/`nan`
words and digit-group underscores accepted by Python are not modelled,
none of which denote monetary values). -/

/-- Digits-to-number on a list of decimal digit characters. -/
def digitsToNat (cs : List Char) : ℕ :=
  cs.foldl (fun a c => a * 10 + (c.toNat - 48)) 0

/-- `re.sub(r'\D', '', s)`: keep only digits. -/
def keepDigits (s : String) : List Char :=
  s.toList.filter Char.isDigit

/-- `normalize_cnpj` (normalizers.py lines 10-17). -/
def normalize_cnpj (cnpj : String) : Option String :=
  if cnpj = "" then none
  else
    let digits := keepDigits cnpj
    if digits.length = 14 then some (String.mk digits) else none

/-- `normalize_cep` (normalizers.py lines 134-141). -/
def normalize_cep (cep : String) : Option String :=
  if cep = "" then none
  else
    let digits := keepDigits cep
    if digits.length = 8 then some (String.mk digits) else none

/-- Gregorian leap year, as validated by `datetime.strptime`. -/
def isLeapYear (y : ℕ) : Bool :=
  y % 4 = 0 && (y % 100 ≠ 0 || y % 400 = 0)

/-- Days in a month, as validated by `datetime.strptime`. -/
def daysInMonth (y m : ℕ) : ℕ :=
  if m = 2 then (if isLeapYear y then 29 else 28)
  else if m = 4 ∨ m = 6 ∨ m = 9 ∨ m = 11 then 30
  else 31

/-- Calendar validity of `year-month-day` under `strptime('%Y-%m-%d')`
(datetime years run from 1 to 9999; the regexes below cap `year` at four
digits). -/
def validDate (y m d : ℕ) : Bool :=
  1 ≤ y && 1 ≤ m && m ≤ 12 && 1 ≤ d && d ≤ daysInMonth y m

/-- Zero-padded two-digit rendering (`f"{n:02d}"` for the values in
range here). -/
def pad2 (n : ℕ) : String :=
  if n < 10 then "0" ++ toString n else toString n

/-- Match `^\d{4}-\d{2}-\d{2}$` (the already-ISO check of
`normalize_date`; this is a shape check only, with no calendar
validation in the source). -/
def isIsoShape (cs : List Char) : Bool :=
  match cs with
  | [a, b, c, d, '-', e, f, '-', g, h] =>
    [a, b, c, d, e, f, g, h].all Char.isDigit
  | _ => false

/-- Match `^(\d{1,2})SEP(\d{1,2})SEP(\d{4})$` or the `ymd` variant,
where SEP is one of `/`, `.`, `-`; returns the three digit groups. -/
def matchDateGroups (cs : List Char) : Option (List Char × List Char × List Char) :=
  let isSep := fun c => c = '/' ∨ c = '.' ∨ c = '-'
  let (g1, rest) := (cs.takeWhile Char.isDigit, cs.dropWhile Char.isDigit)
  match rest with
  | s1 :: rest =>
    if isSep s1 then
      let (g2, rest) := (rest.takeWhile Char.isDigit, rest.dropWhile Char.isDigit)
      match rest with
      | s2 :: rest =>
        if isSep s2 then
          let (g3, rest) := (rest.takeWhile Char.isDigit, rest.dropWhile Char.isDigit)
          if rest.isEmpty then some (g1, g2, g3) else none
        else none
      | _ => none
    else none
  | _ => none

/-- The `dmy` branch of `normalize_date`: groups sized 1-2 / 1-2 / 4,
calendar-validated, rendered as `YYYY-MM-DD` (the year keeps its
original four digits). -/
def dateFromGroups (dayG monthG yearG : List Char) : Option String :=
  let day := digitsToNat dayG
  let month := digitsToNat monthG
  let year := digitsToNat yearG
  if validDate year month day then
    some (String.mk yearG ++ "-" ++ pad2 month ++ "-" ++ pad2 day)
  else none

/-- `normalize_date` (normalizers.py lines 20-51). -/
def normalize_date (dateStr : String) : Option String :=
  if dateStr = "" then none
  else if isIsoShape dateStr.toList then some dateStr
  else
    let stripped := (pyStrip dateStr).toList
    match matchDateGroups stripped with
    | some (g1, g2, g3) =>
      -- dmy: `^(\d{1,2})[/.-](\d{1,2})[/.-](\d{4})$`
      if 1 ≤ g1.length ∧ g1.length ≤ 2 ∧ 1 ≤ g2.length ∧ g2.length ≤ 2 ∧ g3.length = 4 then
        match dateFromGroups g1 g2 g3 with
        | some iso => some iso
        | none => none  -- a calendar-invalid dmy match cannot re-match ymd
      else
      -- ymd: `^(\d{4})[/.-](\d{1,2})[/.-](\d{1,2})$`
      if g1.length = 4 ∧ 1 ≤ g2.length ∧ g2.length ≤ 2 ∧ 1 ≤ g3.length ∧ g3.length ≤ 2 then
        match dateFromGroups g3 g2 g1 with
        | some iso => some iso
        | none => none
      else none
    | none => none

/-- Python `float(str)` on the decimal/exponent grammar, as an exact
rational; `none` models `ValueError`. -/
def parseFloatQ (cs0 : List Char) : Option ℚ :=
  let cs1 := cs0.dropWhile Char.isWhitespace
  let cs := (cs1.reverse.dropWhile Char.isWhitespace).reverse
  let sign : ℚ := if cs.head? = some '-' then -1 else 1
  let cs := if cs.head? = some '+' ∨ cs.head? = some '-' then cs.tail else cs
  let ip := cs.takeWhile Char.isDigit
  let cs := cs.dropWhile Char.isDigit
  let hasDot := cs.head? = some '.'
  let fp := if hasDot then cs.tail.takeWhile Char.isDigit else []
  let cs := if hasDot then cs.tail.dropWhile Char.isDigit else cs
  if ip.isEmpty && fp.isEmpty then none
  else
    let mant : ℚ := sign * ((digitsToNat ip : ℚ) + (digitsToNat fp : ℚ) / (10 : ℚ) ^ fp.length)
    if cs.isEmpty then some mant
    else if cs.head? = some 'e' ∨ cs.head? = some 'E' then
      let t := cs.tail
      let esign : ℤ := if t.head? = some '-' then -1 else 1
      let t := if t.head? = some '+' ∨ t.head? = some '-' then t.tail else t
      let ed := t.takeWhile Char.isDigit
      let t2 := t.dropWhile Char.isDigit
      if ed.isEmpty ∨ !t2.isEmpty then none
      else some (mant * (10 : ℚ) ^ (esign * (digitsToNat ed : ℤ)))
    else none

/-- `re.sub(r'[R$US\$€£¥\s]', '', s, flags=re.IGNORECASE)`: drop currency
symbols, the letters R/U/S in either case, and whitespace. -/
def removeCurrencyChars (cs : List Char) : List Char :=
  cs.filter (fun c =>
    !(c = 'R' ∨ c = 'r' ∨ c = 'U' ∨ c = 'u' ∨ c = 'S' ∨ c = 's' ∨
      c = '$' ∨ c = '€' ∨ c = '£' ∨ c = '¥' ∨ c.isWhitespace))

/-- pt-BR cleaning: `cleaned.replace('.', '').replace(',', '.')`. -/
def ptBRClean (cs : List Char) : List Char :=
  (cs.filter (fun c => c ≠ '.')).map (fun c => if c = ',' then '.' else c)

/-- en-US cleaning: `cleaned.replace(',', '')`. -/
def enUSClean (cs : List Char) : List Char :=
  cs.filter (fun c => c ≠ ',')

/-- `normalize_monetary_value` (normalizers.py lines 54-81). -/
def normalize_monetary_value (valueStr : String) (locale : String) : Option ℚ :=
  if valueStr = "" then none
  else
    let cleaned := removeCurrencyChars valueStr.toList
    let cleaned := if locale = "pt-BR" then ptBRClean cleaned else enUSClean cleaned
    parseFloatQ cleaned

/-!  ## `app/normalizers/canonical.py` — canonical normalizer

The canonical pydantic object is modelled as a `PV.obj` tree whose field
lists follow the schema in `app/schemas/canonical.py`.  Dict lookups that
Python would crash on (`.get` on a non-dict) are modelled as returning
the default; those paths are unreachable for inputs the source survives
on. -/

/-- `getattr(v, k, None)` on an attribute object. -/
def pvAttr (v : PV) (k : String) : PV :=
  match v with
  | PV.obj fs => (PV.lookup fs k).getD PV.null
  | _ => PV.null

/-- `setattr(v, k, x)` on an attribute object: pydantic raises on an
undeclared field, so only existing fields are updated. -/
def pvObjSet (v : PV) (k : String) (x : PV) : PV :=
  match v with
  | PV.obj fs =>
    if fs.any (fun p => p.1 = k) then PV.obj (fs.map (fun p => if p.1 = k then (k, x) else p))
    else v
  | other => other

/-- `REQUIRED_FIELDS` (canonical.py lines 30-36). -/
def REQUIRED_FIELDS : List String :=
  ["customer.name", "customer.tax_id", "order.order_number", "order.issue_date", "items"]

/-- Python `int(float)`: truncation toward zero. -/
def pyTruncQ (q : ℚ) : ℤ :=
  if q ≥ 0 then ⌊q⌋ else ⌈q⌉

/-- `_to_int` (canonical.py lines 467-478).  A Python `bool` is an
`int`. -/
def _to_int (v : PV) : Option ℤ :=
  match v with
  | PV.null => none
  | PV.b bv => some (if bv then 1 else 0)
  | PV.i n => some n
  | PV.f q => some (pyTruncQ q)
  | PV.s str =>
    let cleaned := pyStrip str
    if cleaned ≠ "" ∧ cleaned.toList.all Char.isDigit then some (digitsToNat cleaned.toList)
    else none
  | _ => none

/-- `_to_decimal` (canonical.py lines 442-464).  A Python `bool` is an
instance of `int`, so `float(True) == 1.0`. -/
def _to_decimal (v : PV) : Option ℚ :=
  match v with
  | PV.null => none
  | PV.b bv => some (if bv then 1 else 0)
  | PV.i n => some (n : ℚ)
  | PV.f q => some q
  | PV.s str =>
    let cleaned := pyStrip str
    if cleaned = "" then none
    else if !cleaned.toList.any Char.isDigit then none
    else
      let hasComma := cleaned.toList.contains ','
      let hasDot := cleaned.toList.contains '.'
      let locale :=
        if hasComma && hasDot then "pt-BR"
        else if hasComma && !hasDot then "pt-BR"
        else "en-US"
      normalize_monetary_value cleaned locale
  | _ => none

/-- Round-half-even to an integer (the tie rule of Python `round`). -/
def roundHalfEven (q : ℚ) : ℤ :=
  let fl := ⌊q⌋
  let fr := q - fl
  if fr < 1/2 then fl
  else if fr > 1/2 then fl + 1
  else if 2 ∣ fl then fl else fl + 1

/-- Python `round(x, 6)` modelled as exact decimal round-half-even (the
additional binary-representation wobble of IEEE floats is not
modelled). -/
def round6 (q : ℚ) : ℚ :=
  (roundHalfEven (q * 1000000) : ℚ) / 1000000

/-- Optional rational to Python value (`None` / float). -/
def optF (o : Option ℚ) : PV :=
  match o with
  | some q => PV.f q
  | none => PV.null

/-- Optional string to Python value. -/
def optS (o : Option String) : PV :=
  match o with
  | some str => PV.s str
  | none => PV.null

/-- `normalize_date` lifted to a Python value (the source passes
whatever the payload held; falsy values return `None`, and a truthy
non-string would crash Python — unreachable here and modelled as
`None`). -/
def normalizeDatePV (v : PV) : PV :=
  match v with
  | PV.s str => optS (normalize_date str)
  | _ => PV.null

/-- `normalize_cnpj` lifted to a Python value (same conventions as
`normalizeDatePV`). -/
def normalizeCnpjPV (v : PV) : PV :=
  match v with
  | PV.s str => optS (normalize_cnpj str)
  | _ => PV.null

/-- `normalize_cep` lifted to a Python value. -/
def normalizeCepPV (v : PV) : PV :=
  match v with
  | PV.s str => optS (normalize_cep str)
  | _ => PV.null

/-- `_build_customer` (canonical.py lines 194-214). -/
def _build_customer (order : PV) : PV :=
  let sellTo :=
    match order with
    | PV.dict _ => pvDictGetD order "sell_to" (PV.dict [])
    | _ => PV.dict []
  let email := pvDictGetD sellTo "email" PV.null
  let phone := pvDictGetD sellTo "phone" PV.null
  let contactName := pvDictGetD sellTo "contact" PV.null
  let contacts : List PV :=
    (if email.truthy then [PV.obj [("type", PV.s "email"), ("value", email)]] else [])
      ++ (if phone.truthy then [PV.obj [("type", PV.s "phone"), ("value", phone)]] else [])
      ++ (if contactName.truthy then [PV.obj [("type", PV.s "person"), ("value", contactName)]] else [])
  PV.obj
    [("name", pvDictGetD sellTo "name" PV.null),
     ("tax_id", normalizeCnpjPV (pvDictGetD sellTo "cnpj" PV.null)),
     ("code", pvDictGetD order "customer_code" PV.null),
     ("contacts", PV.arr contacts)]

/-- One address block of `_build_addresses` (canonical.py lines
221-240). -/
def buildAddress (src : PV) : PV :=
  PV.obj
    [("line1", pvDictGetD src "address" PV.null),
     ("number", pvDictGetD src "number" PV.null),
     ("complement", pvDictGetD src "complement" PV.null),
     ("district", pvDictGetD src "district" PV.null),
     ("city", pvDictGetD src "city" PV.null),
     ("state", pvDictGetD src "state" PV.null),
     ("zip",
       if (pvDictGetD src "zip" PV.null).truthy then normalizeCepPV (pvDictGetD src "zip" PV.null)
       else PV.null),
     ("country", pvDictGetD src "country" PV.null)]

/-- `_build_addresses` (canonical.py lines 217-242). -/
def _build_addresses (order : PV) : PV :=
  let billTo :=
    match order with
    | PV.dict _ => pvDictGetD order "bill_to" (PV.dict [])
    | _ => PV.dict []
  let shipTo :=
    match order with
    | PV.dict _ => pvDictGetD order "ship_to" (PV.dict [])
    | _ => PV.dict []
  PV.obj [("billing", buildAddress billTo), ("shipping", buildAddress shipTo)]

/-- One item of `_build_items` (canonical.py lines 247-272); `idx` is the
1-based position used when the item number is absent or falsy. -/
def buildItem (idx : ℕ) (line : PV) : PV :=
  let lineNumber : ℤ :=
    match _to_int (pvDictGetD line "customer_order_item_no" PV.null) with
    | some n => if n = 0 then (idx : ℤ) else n  -- `_to_int(...) or idx`
    | none => (idx : ℤ)
  let quantity := _to_decimal (pvDictGetD line "quantity" PV.null)
  let unitPrice := _to_decimal (pvDictGetD line "unit_price_excl_vat" PV.null)
  let discount := _to_decimal (pvDictGetD line "discount" PV.null)
  let tax := _to_decimal (pvDictGetD line "tax" PV.null)
  let total := _to_decimal (pvDictGetD line "total" PV.null)
  let total :=
    match total, quantity, unitPrice with
    | none, some q, some p => some (round6 (q * p))
    | t, _, _ => t
  PV.obj
    [("line_number", PV.i lineNumber),
     ("sku", pvDictGetD line "item_reference_no" PV.null),
     ("description", pvDictGetD line "description" PV.null),
     ("quantity", optF quantity),
     ("unit", pvDictGetD line "unit_of_measure" PV.null),
     ("unit_price", optF unitPrice),
     ("discount", optF discount),
     ("tax", optF tax),
     ("total", optF total),
     ("delivery_date", normalizeDatePV (pvDictGetD line "delivery_date" PV.null)),
     ("raw", pyOr line (PV.dict []))]

/-- The `enumerate(lines or [], start=1)` loop of `_build_items`:
`idx` is the 1-based position of the head of the remaining list. -/
def buildItemsGo (idx : ℕ) : List PV → List PV
  | [] => []
  | line :: rest => buildItem idx line :: buildItemsGo (idx + 1) rest

/-- `_build_items` (canonical.py lines 245-274). -/
def _build_items (lines : PV) : List PV :=
  match pyOr lines (PV.arr []) with
  | PV.arr xs => buildItemsGo 1 xs
  | _ => []

/-- `_build_totals` (canonical.py lines 404-414): sum of the non-`None`
item totals, rounded to 6 places, or `None` when no item has one. -/
def _build_totals (items : List PV) : PV :=
  let totals := items.filterMap (fun it =>
    match pvAttr it "total" with
    | PV.f q => some q
    | PV.i n => some ((n : ℚ))
    | _ => none)
  let subtotal := if totals.isEmpty then PV.null else PV.f (round6 (totals.foldl (· + ·) 0))
  PV.obj
    [("subtotal", subtotal), ("discounts", PV.null), ("freight", PV.null),
     ("taxes", PV.null), ("total", subtotal)]

/-- `_compute_missing_fields` (canonical.py lines 417-431), on the
customer / order objects and the items list of the canonical tree. -/
def _compute_missing_fields (customer order items : PV) : List String :=
  let missing :=
    (if !(pvAttr customer "name").truthy then ["customer.name"] else [])
      ++ (if !(pvAttr customer "tax_id").truthy then ["customer.tax_id"] else [])
      ++ (if !(pvAttr order "order_number").truthy then ["order.order_number"] else [])
      ++ (if !(pvAttr order "issue_date").truthy then ["order.issue_date"] else [])
      ++ (if !items.truthy then ["items"] else [])
  REQUIRED_FIELDS.filter (fun field => missing.contains field)

/-- `_derive_status` (canonical.py lines 434-439). -/
def _derive_status (result : PV) (warnings : PV) (missingFields : List String) : String :=
  if !result.truthy then "failed"
  else if warnings.truthy || !missingFields.isEmpty then "partial"
  else "success"

/-!  ### Field-mapping path getters and setters (canonical.py 277-401) -/

/-- `s.split(sep, 1)` when `sep` occurs in `s`: the part before the first
occurrence and the part after it. -/
def splitOnce (cs sep : List Char) : Option (List Char × List Char) :=
  match cs with
  | [] => if sep.isEmpty then some ([], []) else none
  | c :: t =>
    if sep.isPrefixOf cs then some ([], cs.drop sep.length)
    else
      match splitOnce t sep with
      | some (a, b) => some (c :: a, b)
      | none => none

/-- `s.lstrip(".")`. -/
def lstripDots (s : String) : String :=
  String.mk (s.toList.dropWhile (fun c => c = '.'))

/-- `s.rstrip(".")`. -/
def rstripDots (s : String) : String :=
  String.mk ((s.toList.reverse.dropWhile (fun c => c = '.')).reverse)

/-- `path.startswith("result.")` then drop the prefix. -/
def dropResultPrefix (path : String) : String :=
  if "result.".toList.isPrefixOf path.toList then String.mk (path.toList.drop 7) else path

/-- The plain dotted-path walk of `_get_value_by_path` (lines 316-323):
each step requires a dict, a missing key or `None` stops the walk. -/
def getGo (data : PV) (parts : List String) : PV :=
  match parts with
  | [] => data
  | p :: rest =>
    match data with
    | PV.dict fs =>
      match (PV.lookup fs p).getD PV.null with
      | PV.null => PV.null
      | v => getGo v rest
    | _ => PV.null

mutual
/-- `_get_value_by_path` (canonical.py lines 308-323); `None` is `null`.
`fuel` bounds the mutual recursion through `[]` segments; each step
consumes at least the two bracket characters, so `path.length` steps
always suffice. -/
def _get_value_by_path (fuel : ℕ) (data : PV) (path : String) : PV :=
  match fuel with
  | 0 => PV.null
  | fuel + 1 =>
    if path = "" then PV.null
    else
      let path := dropResultPrefix path
      if pyIn "[]" path then
        match _get_list_value_by_path fuel data path with
        | v :: _ => v
        | [] => PV.null
      else getGo data (path.splitOn ".")

/-- `_get_list_value_by_path` (canonical.py lines 326-349). -/
def _get_list_value_by_path (fuel : ℕ) (data : PV) (path : String) : List PV :=
  match fuel with
  | 0 => []
  | fuel + 1 =>
    if path = "" then []
    else
      let path := dropResultPrefix path
      if !pyIn "[]" path then
        match _get_value_by_path fuel data path with
        | PV.null => []
        | v => [v]
      else
        match splitOnce path.toList "[]".toList with
        | none => []  -- unreachable: guarded by `"[]" in path`
        | some (before, after) =>
          let listPath := rstripDots (String.mk before)
          let remainder := lstripDots (String.mk after)
          match _get_value_by_path fuel data listPath with
          | PV.arr xs =>
            if remainder = "" then xs
            else
              xs.map (fun item =>
                match item with
                | PV.dict _ => _get_value_by_path fuel item remainder
                | _ => PV.null)
          | _ => []
end

/-- `_apply_transform` (canonical.py lines 389-401). -/
def _apply_transform (value : PV) (transform : Option String) : PV :=
  match value, transform with
  | PV.null, _ => PV.null
  | v, none => v
  | v, some t =>
    if t = "" then v
    else
      let t := pyLower t
      match v with
      | PV.s str =>
        if t = "upper" then PV.s (pyUpper str)
        else if t = "lower" then PV.s (pyLower str)
        else if t = "date_iso" ∨ t = "date" then optS (normalize_date str)
        else if t = "number" ∨ t = "decimal" then optF (_to_decimal v)
        else v
      | _ =>
        if t = "number" ∨ t = "decimal" then optF (_to_decimal v) else v

/-- `v in (None, "", [])`: the emptiness test of the fill-if-missing
setters. -/
def inEmptyTuple (v : PV) : Bool :=
  match v with
  | PV.null => true
  | PV.s "" => true
  | PV.arr [] => true
  | _ => false

/-- The walk-and-set core of `_set_value_if_missing` (canonical.py lines
352-372).  Dicts are traversed with `setdefault(part, {})` (inserting an
empty dict for a missing key), attribute objects with `getattr`/`hasattr`
(a missing attribute aborts), anything else aborts; at the leaf the value
is stored only when the current one is in `(None, "", [])`.  Python's
in-place mutation becomes a functional update; `setattr` on objects
without that attribute raises in Python and leaves the tree unchanged
here. -/
def setGo (cur : PV) (parts : List String) (value : PV) : PV :=
  match parts with
  | [] => cur
  | [leaf] =>
    match cur with
    | PV.dict fs =>
      if inEmptyTuple ((PV.lookup fs leaf).getD PV.null) then PV.dict (assocSet fs leaf value)
      else cur
    | PV.obj fs =>
      if inEmptyTuple ((PV.lookup fs leaf).getD PV.null) then pvObjSet cur leaf value
      else cur
    | other => other
  | part :: rest =>
    match cur with
    | PV.dict fs =>
      match PV.lookup fs part with
      | some child => PV.dict (assocSet fs part (setGo child rest value))
      | none => PV.dict (assocSet fs part (setGo (PV.dict []) rest value))
    | PV.obj fs =>
      match PV.lookup fs part with
      | some child => PV.obj (assocSet fs part (setGo child rest value))
      | none => cur
    | other => other

/-- `_set_value_if_missing` (canonical.py lines 352-372). -/
def _set_value_if_missing (targetObj : PV) (path : String) (value : PV) : PV :=
  if path = "" then targetObj
  else setGo targetObj ((lstripDots path).splitOn ".") value

/-- `getattr(item, field, None) in (None, "", [])` guarded `setattr` of
`_set_item_values_if_missing`. -/
def setAttrIfMissing (item : PV) (fieldName : String) (value : PV) : PV :=
  if inEmptyTuple (pvAttr item fieldName) then pvObjSet item fieldName value else item

/-- The indexed item loop of `_set_item_values_if_missing`: `continue`
on a `None` value, no-op past the end of `values` (the loop `break`s
there). -/
def setItemsGo (targetField : String) (values : List PV) (idx : ℕ) : List PV → List PV
  | [] => []
  | item :: rest =>
    (match values.get? idx with
     | some PV.null => item
     | some v => setAttrIfMissing item targetField v
     | none => item) :: setItemsGo targetField values (idx + 1) rest

/-- `_set_item_values_if_missing` (canonical.py lines 375-386): zip the
values positionally onto `canonical.items`, filling only empty fields. -/
def _set_item_values_if_missing (canonical : PV) (targetPath : String) (values : List PV) :
    PV :=
  if !pyIn "items[]" targetPath then canonical
  else
    let targetField :=
      match splitOnce targetPath.toList "items[].".toList with
      | some (_, after) => String.mk after
      | none => targetPath  -- `split("items[].", 1)[-1]` with no separator
    match pvAttr canonical "items" with
    | PV.arr xs => pvObjSet canonical "items" (PV.arr (setItemsGo targetField values 0 xs))
    | _ => canonical

/-- `apply_mapping_config` (canonical.py lines 277-305).  An empty
mapping dict returns immediately in the source; here both folds are then
no-ops. -/
def apply_mapping_config (canonical legacyOutput : PV) (mc : MappingConfig) : PV :=
  let fuel := 1000
  let legacyRoot :=
    match legacyOutput with
    | PV.dict fs => pyOr ((PV.lookup fs "result").getD PV.null) legacyOutput
    | _ => pyOr PV.null legacyOutput
  let c1 := mc.fields.foldl (fun acc m =>
    match m.target, m.source with
    | some t, some src =>
      if t = "" ∨ src = "" then acc
      else
        let value := _apply_transform (_get_value_by_path fuel legacyRoot src) m.transform
        match value with
        | PV.null => acc
        | v => _set_value_if_missing acc t v
    | _, _ => acc) canonical
  mc.itemFields.foldl (fun acc m =>
    match m.target, m.source with
    | some t, some src =>
      if t = "" ∨ src = "" then acc
      else
        let values := (_get_list_value_by_path fuel legacyRoot src).map
          (fun v => _apply_transform v m.transform)
        _set_item_values_if_missing acc t values
    | _, _ => acc) c1

/-!  ### Schema validation (`app/schemas/canonical.py` via pydantic)

`CanonicalParseResponse.model_validate` is modelled structurally over the
schema declared in `app/schemas/canonical.py`: required fields must be
present, optional fields fall back to their declared defaults, unknown
keys are dropped, ints coerce to floats, and enum fields accept their
string values.  (Pydantic's further lax coercions — numeric strings,
etc. — are not exercised by this repository's payloads and are not
modelled.)  Validated values are attribute objects (`PV.obj`); `none`
of this is reachable for non-dict payloads. -/

/-- `str.__str__` of a Python value, used only by
`_map_document_type`; non-string renderings are approximate (the source
only ever feeds strings here). -/
def pyStr (v : PV) : String :=
  match v with
  | PV.s str => str
  | PV.null => "None"
  | PV.b true => "True"
  | PV.b false => "False"
  | PV.i n => toString n
  | PV.f _ => "<float>"
  | PV.arr _ => "<list>"
  | PV.dict _ => "<dict>"
  | PV.obj _ => "<object>"

/-- `_map_document_type` (canonical.py lines 172-173 with the
`DOCUMENT_TYPE_MAP` of lines 44-49). -/
def _map_document_type (docType : PV) : String :=
  let k := pyLower (pyStr docType)
  if k = "purchase_order" ∨ k = "order" then "order"
  else if k = "quote" ∨ k = "budget" then "budget"
  else "unknown"

/-- `_map_detected_by` (canonical.py lines 176-182). -/
def _map_detected_by (detectedBy : Option String) : String :=
  match detectedBy with
  | none => "unknown"
  | some d =>
    if d = "" then "unknown"
    else
      let dl := pyLower d
      if dl = "rule" ∨ dl = "manual" ∨ dl = "configurator" then dl else "unknown"

/-- Python `a or b` on optional strings where both operands may be
absent. -/
def pyOrOpt (a b : Option String) : Option String :=
  match a with
  | some str => if str = "" then b else some str
  | none => b

/-- `CURRENCY_MAP.get(k, CurrencyCode.UNKNOWN)` (canonical.py lines
38-42). -/
def currencyMapGet (k : String) : String :=
  if k = "BRL" then "BRL" else if k = "USD" then "USD" else if k = "EUR" then "EUR"
  else "UNKNOWN"

/-- String-keyed table lookup (`dict.get`). -/
def tableGet (table : List (String × String)) (k : String) : Option String :=
  (table.find? (fun p => p.1 = k)).map Prod.snd

/-- `ConfigLoader.map_currency` (config/loader.py lines 174-180); the
configured currency table is a parameter of the embedding. -/
def configMapCurrency (currencies : List (String × String)) (currency : String) :
    Option String :=
  if currency = "" then none
  else
    let currencyUpper := pyStrip (pyUpper currency)
    pyOrOpt (tableGet currencies currencyUpper) (tableGet currencies currency)

/-- `_map_currency` (canonical.py lines 185-191).  A truthy non-string
would crash Python's `.upper()`; unreachable here, modelled as
`UNKNOWN`. -/
def _map_currency (currencies : List (String × String)) (currency : PV) : String :=
  match currency with
  | PV.s c =>
    if c = "" then "UNKNOWN"
    else
      match configMapCurrency currencies c with
      | some mapped =>
        if mapped ≠ "" then currencyMapGet (pyUpper mapped) else currencyMapGet (pyUpper c)
      | none => currencyMapGet (pyUpper c)
  | _ => "UNKNOWN"

/-- `_infer_mime_type` (canonical.py lines 166-169). -/
def _infer_mime_type (inputType : String) : String :=
  if inputType = "pdf" then "application/pdf" else "text/plain"

/-- Validate a required string field. -/
def vStr (label : String) (v : PV) : Except String PV :=
  match v with
  | PV.s _ => .ok v
  | _ => .error ("string expected: " ++ label)

/-- Validate an `Optional[str]` field. -/
def vOptStr (label : String) (v : PV) : Except String PV :=
  match v with
  | PV.null => .ok PV.null
  | PV.s _ => .ok v
  | _ => .error ("optional string expected: " ++ label)

/-- Validate an `Optional[int]` field (an integral float coerces). -/
def vOptInt (label : String) (v : PV) : Except String PV :=
  match v with
  | PV.null => .ok PV.null
  | PV.i _ => .ok v
  | PV.f q => if q.den = 1 then .ok (PV.i q.num) else .error ("int expected: " ++ label)
  | _ => .error ("optional int expected: " ++ label)

/-- Validate a `float` field (ints coerce to floats). -/
def vFloat (label : String) (v : PV) : Except String PV :=
  match v with
  | PV.f _ => .ok v
  | PV.i n => .ok (PV.f (n : ℚ))
  | _ => .error ("float expected: " ++ label)

/-- Validate an `Optional[float]` field. -/
def vOptFloat (label : String) (v : PV) : Except String PV :=
  match v with
  | PV.null => .ok PV.null
  | _ => vFloat label v

/-- Validate a string-enum field against its allowed values. -/
def vEnum (label : String) (allowed : List String) (v : PV) : Except String PV :=
  match v with
  | PV.s str => if allowed.contains str then .ok v else .error ("invalid enum value: " ++ label)
  | _ => .error ("enum string expected: " ++ label)

/-- Validate a `List[str]` field. -/
def vStrList (label : String) (v : PV) : Except String PV :=
  match v with
  | PV.arr xs =>
    if xs.all (fun x => match x with | PV.s _ => true | _ => false) then .ok v
    else .error ("list of strings expected: " ++ label)
  | _ => .error ("list expected: " ++ label)

/-- Validate a `Dict[str, Any]` field. -/
def vDict (label : String) (v : PV) : Except String PV :=
  match v with
  | PV.dict _ => .ok v
  | _ => .error ("dict expected: " ++ label)

/-- A required model field. -/
def vReq (fs : List (String × PV)) (k label : String) (f : PV → Except String PV) :
    Except String PV :=
  match PV.lookup fs k with
  | some v => f v
  | none => .error ("missing required field: " ++ label)

/-- An optional model field with its declared default. -/
def vOpt (fs : List (String × PV)) (k : String) (f : PV → Except String PV) (dflt : PV) :
    Except String PV :=
  match PV.lookup fs k with
  | some v => f v
  | none => .ok dflt

/-- Validate each element of a list field. -/
def vListOf (label : String) (f : PV → Except String PV) (v : PV) :
    Except String PV :=
  match v with
  | PV.arr xs => do
    let ys ← xs.mapM f
    .ok (PV.arr ys)
  | _ => .error ("list expected: " ++ label)

/-- Default `ModelInfo()` object. -/
def defaultModelInfo : PV :=
  PV.obj [("name", PV.s "unknown"), ("detected_by", PV.s "unknown"), ("confidence", PV.f 0)]

/-- Default `Address()` object. -/
def defaultAddress : PV :=
  PV.obj
    [("line1", PV.null), ("number", PV.null), ("complement", PV.null), ("district", PV.null),
     ("city", PV.null), ("state", PV.null), ("zip", PV.null), ("country", PV.null)]

/-- Default `Totals()` object. -/
def defaultTotals : PV :=
  PV.obj
    [("subtotal", PV.null), ("discounts", PV.null), ("freight", PV.null), ("taxes", PV.null),
     ("total", PV.null)]

/-- Validate a `DocumentSource` payload. -/
def vDocumentSource (v : PV) : Except String PV :=
  match v with
  | PV.dict fs => do
    let filename ← vOpt fs "filename" (vOptStr "DocumentSource.filename") PV.null
    let mimeType ← vOpt fs "mime_type" (vOptStr "DocumentSource.mime_type") PV.null
    let fileType ← vOpt fs "file_type" (vOptStr "DocumentSource.file_type") PV.null
    let hash ← vOpt fs "hash_sha256" (vOptStr "DocumentSource.hash_sha256") PV.null
    let ingestedAt ← vOpt fs "ingested_at" (vOptStr "DocumentSource.ingested_at") PV.null
    .ok (PV.obj
      [("filename", filename), ("mime_type", mimeType), ("file_type", fileType),
       ("hash_sha256", hash), ("ingested_at", ingestedAt)])
  | _ => .error "DocumentSource: dict expected"

/-- Validate a `ModelInfo` payload. -/
def vModelInfo (v : PV) : Except String PV :=
  match v with
  | PV.dict fs => do
    let name ← vOpt fs "name" (vStr "ModelInfo.name") (PV.s "unknown")
    let detectedBy ← vOpt fs "detected_by"
      (vEnum "ModelInfo.detected_by" ["rule", "manual", "configurator", "unknown"])
      (PV.s "unknown")
    let confidence ← vOpt fs "confidence" (vFloat "ModelInfo.confidence") (PV.f 0)
    .ok (PV.obj [("name", name), ("detected_by", detectedBy), ("confidence", confidence)])
  | _ => .error "ModelInfo: dict expected"

/-- Validate a `DocumentInfo` payload. -/
def vDocumentInfo (v : PV) : Except String PV :=
  match v with
  | PV.dict fs => do
    let id ← vReq fs "id" "DocumentInfo.id" (vStr "DocumentInfo.id")
    let type ← vOpt fs "type"
      (vEnum "DocumentInfo.type" ["order", "budget", "unknown"]) (PV.s "unknown")
    let subtype ← vOpt fs "subtype" (vOptStr "DocumentInfo.subtype") PV.null
    let source ← vReq fs "source" "DocumentInfo.source" vDocumentSource
    let model ← vOpt fs "model" vModelInfo defaultModelInfo
    .ok (PV.obj
      [("id", id), ("type", type), ("subtype", subtype), ("source", source),
       ("model", model)])
  | _ => .error "DocumentInfo: dict expected"

/-- Validate a `Contact` payload. -/
def vContact (v : PV) : Except String PV :=
  match v with
  | PV.dict fs => do
    let type ← vReq fs "type" "Contact.type" (vStr "Contact.type")
    let value ← vReq fs "value" "Contact.value" (vStr "Contact.value")
    .ok (PV.obj [("type", type), ("value", value)])
  | _ => .error "Contact: dict expected"

/-- Validate a `CustomerInfo` payload. -/
def vCustomerInfo (v : PV) : Except String PV :=
  match v with
  | PV.dict fs => do
    let name ← vOpt fs "name" (vOptStr "CustomerInfo.name") PV.null
    let taxId ← vOpt fs "tax_id" (vOptStr "CustomerInfo.tax_id") PV.null
    let code ← vOpt fs "code" (vOptStr "CustomerInfo.code") PV.null
    let contacts ← vOpt fs "contacts" (vListOf "CustomerInfo.contacts" vContact) (PV.arr [])
    .ok (PV.obj [("name", name), ("tax_id", taxId), ("code", code), ("contacts", contacts)])
  | _ => .error "CustomerInfo: dict expected"

/-- Validate an `OrderInfo` payload. -/
def vOrderInfo (v : PV) : Except String PV :=
  match v with
  | PV.dict fs => do
    let orderNumber ← vOpt fs "order_number" (vOptStr "OrderInfo.order_number") PV.null
    let issueDate ← vOpt fs "issue_date" (vOptStr "OrderInfo.issue_date") PV.null
    let deliveryDate ← vOpt fs "delivery_date" (vOptStr "OrderInfo.delivery_date") PV.null
    let validUntil ← vOpt fs "valid_until" (vOptStr "OrderInfo.valid_until") PV.null
    let currency ← vOpt fs "currency"
      (vEnum "OrderInfo.currency" ["BRL", "USD", "EUR", "UNKNOWN"]) (PV.s "UNKNOWN")
    let currencyRaw ← vOpt fs "currency_raw" (vOptStr "OrderInfo.currency_raw") PV.null
    let paymentTerms ← vOpt fs "payment_terms" (vOptStr "OrderInfo.payment_terms") PV.null
    let paymentMethod ← vOpt fs "payment_method" (vOptStr "OrderInfo.payment_method") PV.null
    let shippingMethod ← vOpt fs "shipping_method" (vOptStr "OrderInfo.shipping_method") PV.null
    let notes ← vOpt fs "notes" (vOptStr "OrderInfo.notes") PV.null
    .ok (PV.obj
      [("order_number", orderNumber), ("issue_date", issueDate),
       ("delivery_date", deliveryDate), ("valid_until", validUntil), ("currency", currency),
       ("currency_raw", currencyRaw), ("payment_terms", paymentTerms),
       ("payment_method", paymentMethod), ("shipping_method", shippingMethod),
       ("notes", notes)])
  | _ => .error "OrderInfo: dict expected"

/-- Validate an `Address` payload. -/
def vAddress (v : PV) : Except String PV :=
  match v with
  | PV.dict fs => do
    let line1 ← vOpt fs "line1" (vOptStr "Address.line1") PV.null
    let number ← vOpt fs "number" (vOptStr "Address.number") PV.null
    let complement ← vOpt fs "complement" (vOptStr "Address.complement") PV.null
    let district ← vOpt fs "district" (vOptStr "Address.district") PV.null
    let city ← vOpt fs "city" (vOptStr "Address.city") PV.null
    let state ← vOpt fs "state" (vOptStr "Address.state") PV.null
    let zip ← vOpt fs "zip" (vOptStr "Address.zip") PV.null
    let country ← vOpt fs "country" (vOptStr "Address.country") PV.null
    .ok (PV.obj
      [("line1", line1), ("number", number), ("complement", complement),
       ("district", district), ("city", city), ("state", state), ("zip", zip),
       ("country", country)])
  | _ => .error "Address: dict expected"

/-- Validate an `Addresses` payload. -/
def vAddresses (v : PV) : Except String PV :=
  match v with
  | PV.dict fs => do
    let billing ← vOpt fs "billing" vAddress defaultAddress
    let shipping ← vOpt fs "shipping" vAddress defaultAddress
    .ok (PV.obj [("billing", billing), ("shipping", shipping)])
  | _ => .error "Addresses: dict expected"

/-- Validate an `Item` payload. -/
def vItem (v : PV) : Except String PV :=
  match v with
  | PV.dict fs => do
    let lineNumber ← vOpt fs "line_number" (vOptInt "Item.line_number") PV.null
    let sku ← vOpt fs "sku" (vOptStr "Item.sku") PV.null
    let description ← vOpt fs "description" (vOptStr "Item.description") PV.null
    let quantity ← vOpt fs "quantity" (vOptFloat "Item.quantity") PV.null
    let unit ← vOpt fs "unit" (vOptStr "Item.unit") PV.null
    let unitPrice ← vOpt fs "unit_price" (vOptFloat "Item.unit_price") PV.null
    let discount ← vOpt fs "discount" (vOptFloat "Item.discount") PV.null
    let tax ← vOpt fs "tax" (vOptFloat "Item.tax") PV.null
    let total ← vOpt fs "total" (vOptFloat "Item.total") PV.null
    let deliveryDate ← vOpt fs "delivery_date" (vOptStr "Item.delivery_date") PV.null
    let raw ← vOpt fs "raw" (vDict "Item.raw") (PV.dict [])
    .ok (PV.obj
      [("line_number", lineNumber), ("sku", sku), ("description", description),
       ("quantity", quantity), ("unit", unit), ("unit_price", unitPrice),
       ("discount", discount), ("tax", tax), ("total", total),
       ("delivery_date", deliveryDate), ("raw", raw)])
  | _ => .error "Item: dict expected"

/-- Validate a `Totals` payload. -/
def vTotals (v : PV) : Except String PV :=
  match v with
  | PV.dict fs => do
    let subtotal ← vOpt fs "subtotal" (vOptFloat "Totals.subtotal") PV.null
    let discounts ← vOpt fs "discounts" (vOptFloat "Totals.discounts") PV.null
    let freight ← vOpt fs "freight" (vOptFloat "Totals.freight") PV.null
    let taxes ← vOpt fs "taxes" (vOptFloat "Totals.taxes") PV.null
    let total ← vOpt fs "total" (vOptFloat "Totals.total") PV.null
    .ok (PV.obj
      [("subtotal", subtotal), ("discounts", discounts), ("freight", freight),
       ("taxes", taxes), ("total", total)])
  | _ => .error "Totals: dict expected"

/-- Validate an `Attachment` payload. -/
def vAttachment (v : PV) : Except String PV :=
  match v with
  | PV.dict fs => do
    let filename ← vOpt fs "filename" (vOptStr "Attachment.filename") PV.null
    let mimeType ← vOpt fs "mime_type" (vOptStr "Attachment.mime_type") PV.null
    let hash ← vOpt fs "hash_sha256" (vOptStr "Attachment.hash_sha256") PV.null
    .ok (PV.obj [("filename", filename), ("mime_type", mimeType), ("hash_sha256", hash)])
  | _ => .error "Attachment: dict expected"

/-- Validate a `ParsingMetadata` payload. -/
def vParsingMetadata (v : PV) : Except String PV :=
  match v with
  | PV.dict fs => do
    let status ← vOpt fs "status"
      (vEnum "ParsingMetadata.status" ["success", "partial", "failed"]) (PV.s "partial")
    let warnings ← vOpt fs "warnings" (vStrList "ParsingMetadata.warnings") (PV.arr [])
    let missingFields ← vOpt fs "missing_fields"
      (vStrList "ParsingMetadata.missing_fields") (PV.arr [])
    let parsedAt ← vOpt fs "parsed_at" (vOptStr "ParsingMetadata.parsed_at") PV.null
    let parserVersion ← vOpt fs "parser_version"
      (vOptStr "ParsingMetadata.parser_version") PV.null
    let confidence ← vOpt fs "confidence" (vOptFloat "ParsingMetadata.confidence") PV.null
    .ok (PV.obj
      [("status", status), ("warnings", warnings), ("missing_fields", missingFields),
       ("parsed_at", parsedAt), ("parser_version", parserVersion),
       ("confidence", confidence)])
  | _ => .error "ParsingMetadata: dict expected"

/-- `CanonicalParseResponse.model_validate` over the schema of
`app/schemas/canonical.py`. -/
def modelValidateCanonical (v : PV) : Except String PV :=
  match v with
  | PV.dict fs => do
    let schemaVersion ← vOpt fs "schema_version"
      (vStr "CanonicalOrder.schema_version") (PV.s "1.0")
    let document ← vReq fs "document" "CanonicalOrder.document" vDocumentInfo
    let customer ← vReq fs "customer" "CanonicalOrder.customer" vCustomerInfo
    let order ← vReq fs "order" "CanonicalOrder.order" vOrderInfo
    let addresses ← vReq fs "addresses" "CanonicalOrder.addresses" vAddresses
    let items ← vOpt fs "items" (vListOf "CanonicalOrder.items" vItem) (PV.arr [])
    let totals ← vOpt fs "totals" vTotals defaultTotals
    let attachments ← vOpt fs "attachments"
      (vListOf "CanonicalOrder.attachments" vAttachment) (PV.arr [])
    let parsing ← vReq fs "parsing" "CanonicalOrder.parsing" vParsingMetadata
    .ok (PV.obj
      [("schema_version", schemaVersion), ("document", document), ("customer", customer),
       ("order", order), ("addresses", addresses), ("items", items), ("totals", totals),
       ("attachments", attachments), ("parsing", parsing)])
  | _ => .error "CanonicalOrder: dict expected"

mutual
/-- `model_dump` of a validated canonical object: attribute objects
become dicts, recursively. -/
def pvDump : PV → PV
  | PV.obj fs => PV.dict (pvDumpFields fs)
  | PV.dict fs => PV.dict (pvDumpFields fs)
  | PV.arr xs => PV.arr (pvDumpList xs)
  | v => v

def pvDumpList : List PV → List PV
  | [] => []
  | x :: xs => pvDump x :: pvDumpList xs

def pvDumpFields : List (String × PV) → List (String × PV)
  | [] => []
  | (k, x) :: xs => (k, pvDump x) :: pvDumpFields xs
end

/-- The keyword arguments and ambient effects of
`normalize_legacy_to_canonical`: `uuid` models `str(uuid4())`,
`ingestedNow`/`parsedNow` the two `_iso_utc_now()` calls,
`rawInputHash` the value of `_hash_sha256(raw_input)` (none iff
`raw_input is None`), and `currencies` the configured currency table
read by `config.map_currency`. -/
structure NormArgs where
  inputType : String := "text"
  rawInputHash : Option String := none
  sourceName : Option String := none
  hashSha256 : Option String := none
  ingestedAt : Option String := none
  modelName : Option String := none
  detectedBy : Option String := none
  confidence : Option ℚ := none
  parserVersion : Option String := none
  mappingConfig : Option MappingConfig := none
  documentId : Option String := none
  uuid : String := "00000000-0000-0000-0000-000000000000"
  ingestedNow : String := "1970-01-01T00:00:00Z"
  parsedNow : String := "1970-01-01T00:00:00Z"
  currencies : List (String × String) := []

/-- `normalize_legacy_to_canonical` (canonical.py lines 52-149).  The
result is the canonical object tree; `.error` models the pydantic
`ValidationError` the `schema_version` guard can raise. -/
def normalize_legacy_to_canonical (args : NormArgs) (legacyOutput : PV) :
    Except String PV :=
  if (match legacyOutput with
      | PV.dict fs => fs.any (fun p => p.1 = "schema_version")
      | _ => false) then
    modelValidateCanonical legacyOutput
  else
    let output := pyOr legacyOutput (PV.dict [])
    let result :=
      match output with
      | PV.dict fs =>
        if fs.any (fun p => p.1 = "result") then (PV.lookup fs "result").getD PV.null
        else output
      | _ => output
    let result := pyOr result (PV.dict [])
    let order :=
      match result with
      | PV.dict _ => pvDictGetD result "order" (PV.dict [])
      | _ => PV.dict []
    let lines :=
      match result with
      | PV.dict _ => pvDictGetD result "lines" (PV.arr [])
      | _ => PV.arr []
    let warnings :=
      match output with
      | PV.dict _ => pvDictGetD output "warnings" (PV.arr [])
      | _ => PV.arr []
    let documentTypeRaw :=
      match output with
      | PV.dict _ => pvDictGetD output "document_type" (PV.s "unknown")
      | _ => PV.s "unknown"
    let sourceHash := pyOrOpt args.hashSha256 args.rawInputHash
    let ingestedAt := pyOrStr args.ingestedAt args.ingestedNow
    let documentInfo :=
      PV.obj
        [("id", PV.s (pyOrStr args.documentId args.uuid)),
         ("type", PV.s (_map_document_type documentTypeRaw)),
         ("subtype", documentTypeRaw),
         ("source", PV.obj
           [("filename", optS args.sourceName),
            ("mime_type", PV.s (_infer_mime_type args.inputType)),
            ("file_type", PV.s args.inputType),
            ("hash_sha256", optS sourceHash),
            ("ingested_at", PV.s ingestedAt)]),
         ("model", PV.obj
           [("name", PV.s (pyOrStr args.modelName "unknown")),
            ("detected_by", PV.s (_map_detected_by args.detectedBy)),
            ("confidence", PV.f (args.confidence.getD 0))])]
    let customerInfo := _build_customer order
    let addresses := _build_addresses order
    let items := _build_items lines
    let totals := _build_totals items
    let orderInfo :=
      PV.obj
        [("order_number", pvDictGetD order "customer_order_number" PV.null),
         ("issue_date", normalizeDatePV (pvDictGetD order "order_date" PV.null)),
         ("delivery_date", normalizeDatePV
           (pyOr (pvDictGetD order "requested_delivery_date" PV.null)
             (pvDictGetD order "promised_delivery_date" PV.null))),
         ("valid_until", normalizeDatePV (pvDictGetD order "valid_until" PV.null)),
         ("currency", PV.s (_map_currency args.currencies
           (pvDictGetD order "currency_code" PV.null))),
         ("currency_raw", pvDictGetD order "currency_code" PV.null),
         ("payment_terms", pvDictGetD order "payment_terms_code" PV.null),
         ("payment_method", pvDictGetD order "payment_method_code" PV.null),
         ("shipping_method", pvDictGetD order "shipping_method_code" PV.null),
         ("notes", pvDictGetD order "notes" PV.null)]
    let parsing :=
      PV.obj
        [("status", PV.s "partial"),
         ("warnings", warnings),
         ("missing_fields", PV.arr []),
         ("parsed_at", PV.s args.parsedNow),
         ("parser_version", optS args.parserVersion),
         ("confidence", optF args.confidence)]
    let canonical :=
      PV.obj
        [("schema_version", PV.s "1.0"),
         ("document", documentInfo),
         ("customer", customerInfo),
         ("order", orderInfo),
         ("addresses", addresses),
         ("items", PV.arr items),
         ("totals", totals),
         ("attachments", PV.arr []),
         ("parsing", parsing)]
    let canonical :=
      match args.mappingConfig with
      | some mc => apply_mapping_config canonical legacyOutput mc
      | none => canonical
    let missingFields :=
      _compute_missing_fields (pvAttr canonical "customer") (pvAttr canonical "order")
        (pvAttr canonical "items")
    let canonical := pvObjSet canonical "parsing"
      (pvObjSet (pvAttr canonical "parsing") "missing_fields"
        (PV.arr (missingFields.map PV.s)))
    let status := _derive_status result warnings missingFields
    let canonical := pvObjSet canonical "parsing"
      (pvObjSet (pvAttr canonical "parsing") "status" (PV.s status))
    .ok canonical

/-!  ### Observation functions used by the statements below -/


/-- Follow a dotted path through dicts and attribute objects, reporting
the value found (`none` when the path does not resolve). -/
def lookupPath (v : PV) (parts : List String) : Option PV :=
  match parts with
  | [] => some v
  | k :: rest =>
    match v with
    | PV.dict fs =>
      match PV.lookup fs k with
      | some c => lookupPath c rest
      | none => none
    | PV.obj fs =>
      match PV.lookup fs k with
      | some c => lookupPath c rest
      | none => none
    | _ => none

/-- The value of one field of the `idx`-th canonical item. -/
def itemFieldLookup (canonical : PV) (idx : ℕ) (fieldName : String) : Option PV :=
  match pvAttr canonical "items" with
  | PV.arr xs =>
    match xs.get? idx with
    | some (PV.obj fs) => PV.lookup fs fieldName
    | _ => none
  | _ => none

/-- Values that are not dicts and not attribute objects. -/
def notDictObj (v : PV) : Bool :=
  match v with
  | PV.dict _ => false
  | PV.obj _ => false
  | _ => true

/-- Non-container values (everything but lists, dicts and objects). -/
def isLeafVal (v : PV) : Bool :=
  match v with
  | PV.arr _ => false
  | PV.dict _ => false
  | PV.obj _ => false
  | _ => true

/-- The fallback id `detect` reports when no model scores above zero:
the last enabled active model named `generic` or flagged `fallback`,
else the first model, else `unknown`. -/
def designatedFallbackId (models : List ModelDefinition) : String :=
  pyOrStr
    ((((models.filter (fun m => !(!m.enabled || m.status ≠ "active"))).filter
        (fun m => m.modelId = "generic" || m.detection.fallback)).getLast?).map
      (fun m => m.modelId))
    (match models.head? with
     | some m => m.modelId
     | none => "unknown")

/-- Every non-empty, non-container-keyed value reachable by a dotted path
in `a` is still there in `c`; the root `items` list itself (the one slot
the positional item setter rewrites structurally while only filling empty
fields) is tracked separately through `itemFieldsPreserved`. -/
def pathsPreserved (a c : PV) : Prop :=
  ∀ (p : List String) (v : PV),
    lookupPath a p = some v → inEmptyTuple v = false → notDictObj v = true →
    (p = ["items"] → isLeafVal v = true) → lookupPath c p = some v

/-- Every non-empty field of every item of `a` keeps its value in `c`. -/
def itemFieldsPreserved (a c : PV) : Prop :=
  ∀ (idx : ℕ) (f : String) (v : PV),
    itemFieldLookup a idx f = some v → inEmptyTuple v = false →
    itemFieldLookup c idx f = some v

/-!  # Proofs  -/

namespace PV
mutual
theorem beq_refl : (v : PV) → beq v v = true
  | null => rfl
  | b _ => by simp [beq]
  | i _ => by simp [beq]
  | f _ => by simp [beq]
  | s _ => by simp [beq]
  | arr xs => by simp only [beq]; exact beqList_refl xs
  | dict fs => by simp only [beq]; exact beqFields_refl fs
  | obj fs => by simp only [beq]; exact beqFields_refl fs

theorem beqList_refl : (xs : List PV) → beq.beqList xs xs = true
  | [] => rfl
  | x :: xs => by simp [beq.beqList, beq_refl x, beqList_refl xs]

theorem beqFields_refl : (fs : List (String × PV)) → beq.beqFields fs fs = true
  | [] => rfl
  | (k, x) :: fs => by simp [beq.beqFields, beq_refl x, beqFields_refl fs]
end

mutual
theorem eq_of_beq : {v w : PV} → beq v w = true → v = w
  | null, null, _ => rfl
  | b _, b _, h => by simpa [beq] using h
  | i _, i _, h => by simpa [beq] using h
  | f _, f _, h => by simpa [beq] using h
  | s _, s _, h => by simpa [beq] using h
  | arr xs, arr ys, h => by
    simp only [beq] at h
    exact congrArg arr (eq_of_beqList h)
  | dict fs, dict gs, h => by
    simp only [beq] at h
    exact congrArg dict (eq_of_beqFields h)
  | obj fs, obj gs, h => by
    simp only [beq] at h
    exact congrArg obj (eq_of_beqFields h)

theorem eq_of_beqList : {xs ys : List PV} → beq.beqList xs ys = true → xs = ys
  | [], [], _ => rfl
  | x :: xs, y :: ys, h => by
    simp only [beq.beqList, Bool.and_eq_true] at h
    exact congrArg₂ List.cons (eq_of_beq h.1) (eq_of_beqList h.2)

theorem eq_of_beqFields : {fs gs : List (String × PV)} → beq.beqFields fs gs = true → fs = gs
  | [], [], _ => rfl
  | (k, x) :: fs, (l, y) :: gs, h => by
    simp only [beq.beqFields, Bool.and_eq_true] at h
    have hk : k = l := by simpa using h.1.1
    have hv : x = y := eq_of_beq h.1.2
    have ht : fs = gs := eq_of_beqFields h.2
    simp [hk, hv, ht]
end

instance : DecidableEq PV := fun v w =>
  if h : beq v w = true then .isTrue (eq_of_beq h)
  else .isFalse (fun he => h (he ▸ beq_refl v))
end PV

/-!  ### Detector score bounds (C10) -/

theorem catScore_le_weight (w : ℕ) (ms : List String) : catScore w ms ≤ w := by
  unfold catScore; split <;> omega

theorem catScore_le_cat (w : ℕ) (p : String → Bool) (l : List String) :
    catScore w (l.filter p) ≤ if l.isEmpty then 0 else w := by
  cases l with
  | nil => simp [catScore]
  | cons a t =>
    simp only [List.isEmpty_cons, Bool.false_eq_true, if_false]
    exact catScore_le_weight w _

theorem modelScore_le_max (re : String → String → Option Bool) (raw hdr : String)
    (cnpjSet : List String) (d : DetectionRules) :
    modelScore re raw hdr cnpjSet d ≤ modelMaxScore d := by
  unfold modelScore modelMaxScore
  have h1 := catScore_le_cat 2 (fun k => k ≠ "" && pyIn k raw) (filterLower d.keywords)
  have h2 := catScore_le_cat 2 (fun k => k ≠ "" && pyIn k raw) (filterLower d.customerNames)
  have h3 := catScore_le_cat 3 (fun c => c ≠ "" && cnpjSet.contains c)
    (filterTruthy d.customerCnpjs)
  have h4 := catScore_le_cat 2 (fun r => re r hdr == some true) (filterTruthy d.headerRegex)
  have h5 := List.length_filter_le (fun f => f ≠ "" && pyIn f raw)
    (filterLower d.requiredFields)
  unfold substrMatches cnpjMatches headerMatches matchRequiredFields
  omega

/-- C10: for every model definition, parse context (raw text, header
text, cnpj evidence) and regex oracle, the detector's achieved score
never exceeds the model's `max_score`, so the `min(1.0, ...)` clamp on
`score / max(max_score, 1)` never alters the confidence value. -/
theorem detector_confidence_clamp_redundant (re : String → String → Option Bool)
    (raw hdr : String) (cnpjSet : List String) (d : DetectionRules) :
    modelScore re raw hdr cnpjSet d ≤ modelMaxScore d ∧
    modelConfidence re raw hdr cnpjSet d =
      (modelScore re raw hdr cnpjSet d : ℚ) / ((max (modelMaxScore d) 1 : ℕ) : ℚ) := by
  refine ⟨modelScore_le_max re raw hdr cnpjSet d, ?_⟩
  unfold modelConfidence
  apply min_eq_right
  have hpos : (0 : ℚ) < ((max (modelMaxScore d) 1 : ℕ) : ℚ) := by
    exact_mod_cast Nat.lt_of_lt_of_le Nat.zero_lt_one (le_max_right (modelMaxScore d) 1)
  rw [div_le_one hpos]
  exact_mod_cast le_trans (modelScore_le_max re raw hdr cnpjSet d)
    (le_max_left (modelMaxScore d) 1)

/-!  ### Missing fields and status derivation (C3) -/

/-- C3: the computed `missing_fields` list is always a sublist (subset,
in the fixed order) of `REQUIRED_FIELDS`, and the derived parsing status
is `failed` exactly when the result body is empty, `partial` when
warnings or missing fields exist, and `success` otherwise. -/
theorem missing_fields_subset_and_status (customer order items result warnings : PV)
    (missing : List String) :
    (_compute_missing_fields customer order items).Sublist REQUIRED_FIELDS ∧
    (_derive_status result warnings missing = "failed" ↔ result.truthy = false) ∧
    (result.truthy = true →
      (_derive_status result warnings missing = "partial" ↔
        (warnings.truthy = true ∨ missing ≠ []))) ∧
    (_derive_status result warnings missing = "success" ↔
      (result.truthy = true ∧ warnings.truthy = false ∧ missing = [])) := by
  refine ⟨?_, ?_, ?_, ?_⟩
  · simp only [_compute_missing_fields]
    exact List.filter_sublist _
  all_goals
    unfold _derive_status
    by_cases hr : result.truthy <;> by_cases hw : warnings.truthy <;>
      by_cases hm : missing = [] <;> simp [hr, hw, hm]

/-- Witness for C3 at a concrete input: an empty customer object, no
order number, no items, a non-empty result and one warning derive the
`partial` status, and the missing list is a sublist of the required
list. -/
theorem missing_fields_subset_and_status_witness :
    (_compute_missing_fields (PV.obj []) (PV.obj []) (PV.arr [])).Sublist REQUIRED_FIELDS ∧
    _derive_status (PV.dict [("order", PV.dict [])]) (PV.arr [PV.s "w"]) ["items"] =
      "partial" := by
  have h := missing_fields_subset_and_status (PV.obj []) (PV.obj []) (PV.arr [])
    (PV.dict [("order", PV.dict [])]) (PV.arr [PV.s "w"]) ["items"]
  exact ⟨h.1, ((h.2.2.1 (by decide)).mpr (Or.inl (by decide)))⟩

/-!  ### Monetary locale handling (C8) -/

theorem takeWhile_middle (p : Char → Bool) (a b : List Char) (c : Char)
    (ha : ∀ x ∈ a, p x = true) (hc : p c = false) :
    (a ++ c :: b).takeWhile p = a := by
  induction a with
  | nil => simp [List.takeWhile_cons, hc]
  | cons x t ih =>
    have hx := ha x (List.mem_cons_self x t)
    simp only [List.cons_append, List.takeWhile_cons, hx, if_true]
    rw [ih (fun y hy => ha y (List.mem_cons_of_mem x hy))]

theorem dropWhile_middle (p : Char → Bool) (a b : List Char) (c : Char)
    (ha : ∀ x ∈ a, p x = true) (hc : p c = false) :
    (a ++ c :: b).dropWhile p = c :: b := by
  induction a with
  | nil => simp [List.dropWhile_cons, hc]
  | cons x t ih =>
    have hx := ha x (List.mem_cons_self x t)
    simp only [List.cons_append, List.dropWhile_cons, hx, if_true]
    exact ih (fun y hy => ha y (List.mem_cons_of_mem x hy))

theorem takeWhile_all (p : Char → Bool) (l : List Char) (h : ∀ x ∈ l, p x = true) :
    l.takeWhile p = l := by
  induction l with
  | nil => rfl
  | cons x t ih =>
    simp only [List.takeWhile_cons, h x (List.mem_cons_self x t), if_true]
    rw [ih (fun y hy => h y (List.mem_cons_of_mem x hy))]

theorem dropWhile_all (p : Char → Bool) (l : List Char) (h : ∀ x ∈ l, p x = true) :
    l.dropWhile p = [] := by
  induction l with
  | nil => rfl
  | cons x t ih =>
    simp only [List.dropWhile_cons, h x (List.mem_cons_self x t), if_true]
    exact ih (fun y hy => h y (List.mem_cons_of_mem x hy))

theorem dropWhile_eq_self_of_none (p : Char → Bool) (l : List Char)
    (h : ∀ x ∈ l, p x = false) : l.dropWhile p = l := by
  cases l with
  | nil => rfl
  | cons x t => simp [List.dropWhile_cons, h x (List.mem_cons_self x t)]

/-- `float(...)` on a plain `digits.digits` decimal string (whitespace
free). -/
theorem parseFloatQ_decimal (a b : List Char)
    (haD : ∀ x ∈ a, x.isDigit = true) (hbD : ∀ x ∈ b, x.isDigit = true)
    (hne : a ≠ [])
    (hwsA : ∀ x ∈ a, x.isWhitespace = false) (hwsB : ∀ x ∈ b, x.isWhitespace = false) :
    parseFloatQ (a ++ '.' :: b) =
      some ((digitsToNat a : ℚ) + (digitsToNat b : ℚ) / 10 ^ b.length) := by
  have hwsAll : ∀ x ∈ a ++ '.' :: b, x.isWhitespace = false := by
    intro x hx
    rcases List.mem_append.1 hx with hxa | hxb
    · exact hwsA x hxa
    · rcases List.mem_cons.1 hxb with rfl | hxb
      · decide
      · exact hwsB x hxb
  have h1 : (a ++ '.' :: b).dropWhile Char.isWhitespace = a ++ '.' :: b :=
    dropWhile_eq_self_of_none _ _ hwsAll
  have h2 : ((a ++ '.' :: b).reverse.dropWhile Char.isWhitespace).reverse = a ++ '.' :: b := by
    rw [dropWhile_eq_self_of_none _ _ (fun x hx => hwsAll x (List.mem_reverse.1 hx)),
      List.reverse_reverse]
  unfold parseFloatQ
  simp only [h1, h2]
  rcases a with _ | ⟨c0, t0⟩
  · exact absurd rfl hne
  have hc0 := haD c0 (List.mem_cons_self c0 t0)
  have hplus : ¬(c0 = '+') := by intro he; rw [he] at hc0; exact absurd hc0 (by decide)
  have hminus : ¬(c0 = '-') := by intro he; rw [he] at hc0; exact absurd hc0 (by decide)
  have htake : (c0 :: (t0 ++ '.' :: b)).takeWhile Char.isDigit = c0 :: t0 := by
    simpa using takeWhile_middle Char.isDigit (c0 :: t0) b '.' haD (by decide)
  have hdrop : (c0 :: (t0 ++ '.' :: b)).dropWhile Char.isDigit = '.' :: b := by
    simpa using dropWhile_middle Char.isDigit (c0 :: t0) b '.' haD (by decide)
  have htakeb : b.takeWhile Char.isDigit = b := takeWhile_all _ _ hbD
  have hdropb : b.dropWhile Char.isDigit = [] := dropWhile_all _ _ hbD
  simp only [List.cons_append, List.head?_cons, Option.some.injEq, hplus, hminus,
    if_false, false_or, or_self, htake, hdrop, htakeb, hdropb, List.tail_cons,
    List.isEmpty_cons, Bool.false_and, Bool.false_eq_true, if_false, List.isEmpty_nil,
    if_true, Option.some.injEq]
  rw [one_mul]

theorem nmv_ptBR_example : normalize_monetary_value "1.234,56" "pt-BR" = some (1234.56 : ℚ) := by
  show parseFloatQ ("1234".toList ++ '.' :: "56".toList) = some (1234.56 : ℚ)
  rw [parseFloatQ_decimal _ _ (by decide) (by decide) (by decide) (by decide) (by decide)]
  have hd1 : digitsToNat "1234".toList = 1234 := by decide
  have hd2 : digitsToNat "56".toList = 56 := by decide
  have hl : "56".toList.length = 2 := by decide
  rw [hd1, hd2, hl]
  norm_num

theorem nmv_enUS_example : normalize_monetary_value "1,234.56" "en-US" = some (1234.56 : ℚ) := by
  show parseFloatQ ("1234".toList ++ '.' :: "56".toList) = some (1234.56 : ℚ)
  rw [parseFloatQ_decimal _ _ (by decide) (by decide) (by decide) (by decide) (by decide)]
  have hd1 : digitsToNat "1234".toList = 1234 := by decide
  have hd2 : digitsToNat "56".toList = 56 := by decide
  have hl : "56".toList.length = 2 := by decide
  rw [hd1, hd2, hl]
  norm_num

/-- C8: `"1.234,56"` parsed as pt-BR and `"1,234.56"` parsed as en-US
both yield 1234.56, and on every string containing both `,` and `.` the
canonical normalizer's decimal conversion uses the pt-BR convention
(thousands `.`, decimal `,`; when the string contains no digit at all
the conversion short-circuits to `None` before any locale is chosen). -/
theorem monetary_locale_correct (str : String) :
    normalize_monetary_value "1.234,56" "pt-BR" = some (1234.56 : ℚ) ∧
    normalize_monetary_value "1,234.56" "en-US" = some (1234.56 : ℚ) ∧
    ((pyStrip str).toList.contains ',' = true → (pyStrip str).toList.contains '.' = true →
      _to_decimal (PV.s str) =
        if (pyStrip str).toList.any Char.isDigit then
          normalize_monetary_value (pyStrip str) "pt-BR"
        else none) := by
  refine ⟨nmv_ptBR_example, nmv_enUS_example, ?_⟩
  intro h1 h2
  have hne : ¬(pyStrip str = "") := by
    intro he
    rw [he] at h1
    simp [List.contains] at h1
  simp only [_to_decimal]
  rw [if_neg hne]
  by_cases hd : (pyStrip str).toList.any Char.isDigit = true
  · simp only [hd, h1, h2, Bool.not_true, Bool.false_eq_true, if_false, Bool.and_self,
      if_true]
  · rw [Bool.not_eq_true] at hd
    simp only [hd, Bool.not_false, if_true, Bool.false_eq_true, if_false]

/-- Witness for C8: the conversion of `"1.234,56"` (which contains both
separators) goes through the pt-BR path and yields exactly 1234.56. -/
theorem monetary_locale_correct_witness :
    _to_decimal (PV.s "1.234,56") = some (1234.56 : ℚ) := by
  have h := (monetary_locale_correct "1.234,56").2.2 (by decide) (by decide)
  rw [h, if_pos (by decide)]
  have ht : pyStrip "1.234,56" = "1.234,56" := by decide
  rw [ht]
  exact (monetary_locale_correct "1.234,56").1

/-!  ### Item total computation (C9) -/

theorem buildItemsGo_get? (xs : List PV) (k i : ℕ) :
    (buildItemsGo k xs).get? i = (xs.get? i).map (fun line => buildItem (k + i) line) := by
  induction xs generalizing k i with
  | nil => simp [buildItemsGo]
  | cons x t ih =>
    cases i with
    | zero => simp [buildItemsGo]
    | succ j =>
      simp only [buildItemsGo, List.get?_cons_succ, ih (k + 1) j]
      have hk : k + 1 + j = k + (j + 1) := by omega
      rw [hk]

/-- C9: a line item whose `total` field is absent but whose quantity and
unit price both parse is normalized with
`total = round(quantity * unit_price, 6)`. -/
theorem item_total_quantity_times_price (lines : List PV) (i : ℕ)
    (line : List (String × PV)) (q p : ℚ)
    (hline : lines.get? i = some (PV.dict line))
    (habs : PV.lookup line "total" = none)
    (hq : _to_decimal ((PV.lookup line "quantity").getD PV.null) = some q)
    (hp : _to_decimal ((PV.lookup line "unit_price_excl_vat").getD PV.null) = some p) :
    ∃ item, (_build_items (PV.arr lines)).get? i = some item ∧
      pvAttr item "total" = PV.f (round6 (q * p)) := by
  have hnonempty : lines ≠ [] := by
    intro he
    rw [he] at hline
    simp at hline
  have hlist : _build_items (PV.arr lines) = buildItemsGo 1 lines := by
    unfold _build_items pyOr
    cases lines with
    | nil => exact absurd rfl hnonempty
    | cons a t => simp [PV.truthy]
  refine ⟨buildItem (1 + i) (PV.dict line), ?_, ?_⟩
  · rw [hlist, buildItemsGo_get?, hline]
    rfl
  · unfold buildItem
    have hgt : pvDictGetD (PV.dict line) "total" PV.null =
        (PV.lookup line "total").getD PV.null := rfl
    have hq' : _to_decimal (pvDictGetD (PV.dict line) "quantity" PV.null) = some q := hq
    have hp' : _to_decimal (pvDictGetD (PV.dict line) "unit_price_excl_vat" PV.null) =
        some p := hp
    rw [hgt, habs]
    simp only [Option.getD_none, hq', hp']
    have h0 : _to_decimal PV.null = none := rfl
    rw [h0]
    rfl

/-- Witness for C9: quantity 5 and unit price 10 with no total normalize
to `total = 50.0`. -/
theorem item_total_quantity_times_price_witness :
    ∃ item,
      (_build_items (PV.arr
        [PV.dict [("quantity", PV.i 5), ("unit_price_excl_vat", PV.i 10)]])).get? 0 =
        some item ∧
      pvAttr item "total" = PV.f 50 := by
  have h5 : _to_decimal (PV.i 5) = some (5 : ℚ) := by
    simp [_to_decimal]
  have h10 : _to_decimal (PV.i 10) = some (10 : ℚ) := by
    simp [_to_decimal]
  obtain ⟨item, h1, h2⟩ := item_total_quantity_times_price
    [PV.dict [("quantity", PV.i 5), ("unit_price_excl_vat", PV.i 10)]] 0
    [("quantity", PV.i 5), ("unit_price_excl_vat", PV.i 10)] 5 10
    (by rfl) (by rfl) (by simpa [PV.lookup] using h5) (by simpa [PV.lookup] using h10)
  refine ⟨item, h1, ?_⟩
  rw [h2]
  have hr : round6 ((5 : ℚ) * 10) = 50 := by
    unfold round6 roundHalfEven
    norm_num
  rw [hr]

/-!  ### Composite registry merge order (C1) -/

theorem find?_map_replace (d : List ModelDefinition) (m : ModelDefinition)
    (hp : d.any (fun x => x.modelId = m.modelId) = true) :
    (d.map (fun x => if x.modelId = m.modelId then m else x)).find?
      (fun x => x.modelId = m.modelId) = some m := by
  induction d with
  | nil => simp at hp
  | cons a t ih =>
    by_cases ha : a.modelId = m.modelId
    · simp only [List.map_cons, if_pos ha]
      exact List.find?_cons_of_pos _ (by simp)
    · simp only [List.map_cons, if_neg ha]
      rw [List.find?_cons_of_neg _ (by simpa using ha)]
      apply ih
      simpa [List.any_cons, ha] using hp

theorem find?_map_replace_ne (d : List ModelDefinition) (m : ModelDefinition) (id : String)
    (hne : ¬(m.modelId = id)) :
    (d.map (fun x => if x.modelId = m.modelId then m else x)).find?
      (fun x => x.modelId = id) = d.find? (fun x => x.modelId = id) := by
  induction d with
  | nil => rfl
  | cons a t ih =>
    by_cases ha : a.modelId = m.modelId
    · simp only [List.map_cons, if_pos ha]
      rw [List.find?_cons_of_neg _ (by simpa using hne),
        List.find?_cons_of_neg _ (by simp [ha, hne])]
      exact ih
    · simp only [List.map_cons, if_neg ha]
      by_cases hai : a.modelId = id
      · rw [List.find?_cons_of_pos _ (by simpa using hai),
          List.find?_cons_of_pos _ (by simpa using hai)]
      · rw [List.find?_cons_of_neg _ (by simpa using hai),
          List.find?_cons_of_neg _ (by simpa using hai)]
        exact ih

theorem find?_dictInsertModel (d : List ModelDefinition) (m : ModelDefinition) (id : String) :
    (dictInsertModel d m).find? (fun x => x.modelId = id) =
      if m.modelId = id then some m else d.find? (fun x => x.modelId = id) := by
  unfold dictInsertModel
  by_cases hp : d.any (fun x => x.modelId = m.modelId) = true
  · rw [if_pos hp]
    by_cases hid : m.modelId = id
    · subst hid
      rw [if_pos rfl]
      exact find?_map_replace d m hp
    · rw [if_neg hid]
      exact find?_map_replace_ne d m id hid
  · rw [if_neg hp, List.find?_append]
    by_cases hid : m.modelId = id
    · subst hid
      have hdn : d.find? (fun x => x.modelId = m.modelId) = none := by
        rw [List.find?_eq_none]
        intro x hx hxe
        exact hp (List.any_eq_true.2 ⟨x, hx, hxe⟩)
      rw [hdn, if_pos rfl]
      simp [List.find?]
    · rw [if_neg hid]
      have h1 : List.find? (fun x => x.modelId = id) [m] = none := by
        simp [List.find?, hid]
      rw [h1, Option.or_none]

theorem find?_foldl_insert (ms : List ModelDefinition) (d : List ModelDefinition)
    (id : String) :
    (ms.foldl dictInsertModel d).find? (fun x => x.modelId = id) =
      (ms.reverse.find? (fun x => x.modelId = id)).or
        (d.find? (fun x => x.modelId = id)) := by
  induction ms generalizing d with
  | nil => simp
  | cons m t ih =>
    rw [List.foldl_cons, ih, List.reverse_cons, List.find?_append, find?_dictInsertModel]
    by_cases hid : m.modelId = id
    · have h1 : List.find? (fun x => x.modelId = id) [m] = some m :=
        List.find?_cons_of_pos _ (by simpa using hid)
      rw [if_pos hid, h1, Option.or_assoc]
      rfl
    · have h1 : List.find? (fun x => x.modelId = id) [m] = none := by
        simp [List.find?, hid]
      rw [if_neg hid, h1, Option.or_none]

/-- C1 (amended): `CompositeModelRegistry.get` is first-wins across
sources in priority order, but `list_models` is last-wins — the merged
dict entry for an id is the definition from the **latest** source that
provides it. -/
theorem composite_registry_merge (sources : List (List ModelDefinition)) (id : String) :
    compositeGet sources id = firstWinsSpec sources id ∧
    (compositeListModels sources).find? (fun m => m.modelId = id) =
      lastWinsSpec sources id := by
  constructor
  · unfold compositeGet firstWinsSpec sourceGet
    induction sources with
    | nil => rfl
    | cons s rest ih =>
      rw [List.flatten_cons, List.find?_append, List.findSome?_cons]
      cases h : s.find? (fun m => m.modelId = id) with
      | some m => rfl
      | none => exact ih
  · unfold compositeListModels lastWinsSpec
    rw [find?_foldl_insert]
    simp

/-- Counterexample for C1 as stated: with a yaml-first, store-second
source order providing the same id, `list_models` returns the
**second** source's definition, not the first's (while `get` returns the
first's). -/
theorem composite_list_models_last_wins_counterexample :
    compositeListModels
        [[{ modelId := "m", label := "yaml" }], [{ modelId := "m", label := "db" }]] =
      [{ modelId := "m", label := "db" }] ∧
    compositeGet
        [[{ modelId := "m", label := "yaml" }], [{ modelId := "m", label := "db" }]] "m" =
      some { modelId := "m", label := "yaml" } ∧
    ({ modelId := "m", label := "db" } : ModelDefinition) ≠
      { modelId := "m", label := "yaml" } := by
  refine ⟨by decide, by decide, by decide⟩


/-!  ### Detector fallback on no match (C4) -/

/-- The fallback-id accumulator of the detector loop, as a fold. -/
def fallbackFold (fb : Option String) (ms : List ModelDefinition) : Option String :=
  ms.foldl (fun acc m =>
    if !m.enabled || m.status ≠ "active" then acc
    else if m.modelId = "generic" || m.detection.fallback then some m.modelId
    else acc) fb

theorem detectLoop_all_zero (re : String → String → Option Bool) (raw hdr : String)
    (cnpjSet : List String) (ms : List ModelDefinition) :
    ∀ fb : Option String,
      (∀ m ∈ ms, m.enabled = true → m.status = "active" →
        modelScore re raw hdr cnpjSet m.detection = 0) →
      detectLoop re raw hdr cnpjSet ms none fb = (none, fallbackFold fb ms) := by
  induction ms with
  | nil => intro fb _; rfl
  | cons m t ih =>
    intro fb h
    unfold fallbackFold
    rw [List.foldl_cons]
    show detectLoop re raw hdr cnpjSet (m :: t) none fb = _
    by_cases hskip : (!m.enabled || decide (m.status ≠ "active")) = true
    · unfold detectLoop
      simp only [if_pos hskip]
      exact ih fb (fun x hx => h x (List.mem_cons_of_mem m hx))
    · have hen : m.enabled = true := by
        by_contra he
        rw [Bool.not_eq_true] at he
        exact hskip (by rw [Bool.or_eq_true]; exact Or.inl (by simp [he]))
      have hact : m.status = "active" := by
        by_contra he
        exact hskip (by rw [Bool.or_eq_true]; exact Or.inr (by simpa using he))
      have hz := h m (List.mem_cons_self m t) hen hact
      unfold detectLoop
      simp only [if_neg hskip]
      rw [if_pos (by omega : modelScore re raw hdr cnpjSet m.detection ≤ 0)]
      by_cases hfb : (decide (m.modelId = "generic") || m.detection.fallback) = true
      · simp only [if_pos hfb]
        exact ih (some m.modelId) (fun x hx => h x (List.mem_cons_of_mem m hx))
      · simp only [if_neg hfb]
        exact ih fb (fun x hx => h x (List.mem_cons_of_mem m hx))

theorem fallbackFold_eq (ms : List ModelDefinition) (fb : Option String) :
    fallbackFold fb ms =
      ((((ms.filter (fun m => !(!m.enabled || m.status ≠ "active"))).filter
          (fun m => m.modelId = "generic" || m.detection.fallback)).getLast?).map
        (fun m => m.modelId)).or fb := by
  induction ms generalizing fb with
  | nil => rfl
  | cons m t ih =>
    unfold fallbackFold
    rw [List.foldl_cons, List.filter_cons]
    by_cases hskip : (!m.enabled || decide (m.status ≠ "active")) = true
    · have hc : (!(!m.enabled || decide (m.status ≠ "active"))) = false := by
        rw [hskip]; rfl
      simp only [if_pos hskip, hc, Bool.false_eq_true, if_false]
      exact ih fb
    · have hc : (!(!m.enabled || decide (m.status ≠ "active"))) = true := by
        rw [Bool.not_eq_true _ |>.mp hskip]; rfl
      simp only [if_neg hskip, hc, if_true, List.filter_cons]
      by_cases hfb : (decide (m.modelId = "generic") || m.detection.fallback) = true
      · simp only [if_pos hfb, hfb, if_true]
        rw [show (m :: (t.filter (fun m => !(!m.enabled || m.status ≠ "active"))).filter
            (fun m => m.modelId = "generic" || m.detection.fallback)) =
          [m] ++ (t.filter (fun m => !(!m.enabled || m.status ≠ "active"))).filter
            (fun m => m.modelId = "generic" || m.detection.fallback) from rfl]
        have iht := ih (some m.modelId)
        unfold fallbackFold at iht
        rw [List.getLast?_append, iht]
        cases hlast : ((t.filter (fun m => !(!m.enabled || m.status ≠ "active"))).filter
            (fun m => m.modelId = "generic" || m.detection.fallback)).getLast? with
        | some x => rfl
        | none => rfl
      · have hfb' : (decide (m.modelId = "generic") || m.detection.fallback) = false :=
          Bool.not_eq_true _ |>.mp hfb
        simp only [if_neg hfb, hfb', Bool.false_eq_true, if_false]
        exact ih fb

/-- C4 (amended): when no enabled active model scores above zero, the
detector returns confidence 0.0 with the single reason `no_match`, and
its model id is the **last** enabled active model named `generic` or
flagged `fallback`; only when no such model exists does it fall back to
the first model's id, or to the literal `unknown` for an empty list. -/
theorem detect_no_match_returns_designated_fallback (re : String → String → Option Bool)
    (ctx : ParseContext) (models : List ModelDefinition)
    (h : ∀ m ∈ models, m.enabled = true → m.status = "active" →
      modelScore re (pyLower ctx.rawText)
        (pyLower (String.intercalate "\n" ((pySplitlines ctx.rawText).take 20)))
        (ctx.customerCnpjs ++ ctx.cnpjs) m.detection = 0) :
    detect re ctx models =
      { modelId := designatedFallbackId models
        confidence := 0
        reasons := ["no_match"]
        evidence := [⟨"fallback", designatedFallbackId models, 0⟩]
        overridden := false } := by
  simp only [detect]
  rw [detectLoop_all_zero re _ _ _ models none h, fallbackFold_eq, Option.or_none]
  rfl

/-- Witness for C4: two enabled active models, neither matching an empty
document; detection falls back with confidence 0 and reason `no_match`. -/
theorem detect_no_match_returns_designated_fallback_witness :
    detect (fun _ _ => some false) { rawText := "" }
        [{ modelId := "alpha", label := "A" }, { modelId := "generic", label := "G" }] =
      { modelId := "generic", confidence := 0, reasons := ["no_match"],
        evidence := [⟨"fallback", "generic", 0⟩], overridden := false } := by
  have h := detect_no_match_returns_designated_fallback (fun _ _ => some false)
    { rawText := "" }
    [{ modelId := "alpha", label := "A" }, { modelId := "generic", label := "G" }]
    (by decide)
  rw [h]
  rfl

/-- Counterexample for C4 as stated: with models `[alpha, generic]` where
neither is flagged `fallback`, the returned fallback id is `generic` —
not a fallback-flagged model's id, not the first model's id (`alpha`),
and not the literal `unknown`; the source also treats the id `generic`
itself as fallback-designated. -/
theorem detect_fallback_generic_id_counterexample :
    (detect (fun _ _ => some false) { rawText := "" }
        [{ modelId := "alpha" }, { modelId := "generic" }]).modelId = "generic" ∧
    (detect (fun _ _ => some false) { rawText := "" }
        [{ modelId := "alpha" }, { modelId := "generic" }]).confidence = 0 ∧
    (detect (fun _ _ => some false) { rawText := "" }
        [{ modelId := "alpha" }, { modelId := "generic" }]).reasons = ["no_match"] ∧
    ({ modelId := "alpha" } : ModelDefinition).detection.fallback = false ∧
    ({ modelId := "generic" } : ModelDefinition).detection.fallback = false ∧
    ("generic" : String) ≠ "alpha" ∧ ("generic" : String) ≠ "unknown" := by
  exact ⟨by rfl, by rfl, by rfl, by rfl, by rfl, by decide, by decide⟩

/-!  ### Detector signal monotonicity (C7) -/

theorem conf_mono_general (s m s' m' : ℕ) (hs : s ≤ m) (hss : s ≤ s') (hm : m ≤ m')
    (hd : m' - m ≤ s' - s) :
    min 1 ((s : ℚ) / ((max m 1 : ℕ) : ℚ)) ≤ min 1 ((s' : ℚ) / ((max m' 1 : ℕ) : ℚ)) := by
  have hpos : (0 : ℚ) < ((max m 1 : ℕ) : ℚ) := by
    exact_mod_cast Nat.lt_of_lt_of_le Nat.zero_lt_one (le_max_right m 1)
  have hpos' : (0 : ℚ) < ((max m' 1 : ℕ) : ℚ) := by
    exact_mod_cast Nat.lt_of_lt_of_le Nat.zero_lt_one (le_max_right m' 1)
  have hL : min 1 ((s : ℚ) / ((max m 1 : ℕ) : ℚ)) = (s : ℚ) / ((max m 1 : ℕ) : ℚ) := by
    apply min_eq_right
    rw [div_le_one hpos]
    exact_mod_cast le_trans hs (le_max_left m 1)
  rw [hL]
  rcases le_or_lt ((s' : ℚ) / ((max m' 1 : ℕ) : ℚ)) 1 with h1 | h1
  · rw [min_eq_right h1]
    rcases Nat.eq_zero_or_pos m with hm0 | hmpos
    · have hs0 : s = 0 := by omega
      rw [hs0]
      simp only [Nat.cast_zero, zero_div]
      positivity
    · obtain ⟨d, rfl⟩ : ∃ d, m' = m + d := ⟨m' - m, by omega⟩
      have hsd : s + d ≤ s' := by omega
      have e1 : max m 1 = m := Nat.max_eq_left hmpos
      have e2 : max (m + d) 1 = m + d := Nat.max_eq_left (by omega)
      rw [e1, e2]
      have hposm : (0 : ℚ) < (m : ℚ) := by exact_mod_cast hmpos
      have hposmd : (0 : ℚ) < ((m + d : ℕ) : ℚ) := by
        exact_mod_cast (by omega : 0 < m + d)
      rw [div_le_div_iff₀ hposm hposmd]
      have key : s * (m + d) ≤ s' * m := by
        calc s * (m + d) = s * m + s * d := by ring
        _ ≤ s * m + m * d := by
            have := Nat.mul_le_mul_right d hs
            omega
        _ = (s + d) * m := by ring
        _ ≤ s' * m := Nat.mul_le_mul_right m hsd
      exact_mod_cast key
  · rw [min_eq_left (le_of_lt h1)]
    rw [div_le_one hpos]
    exact_mod_cast le_trans hs (le_max_left m 1)

theorem catScore_component (w : ℕ) (p : String → Bool) (A : List String) (x : String)
    (hx : p x = true) :
    catScore w (A.filter p) ≤ catScore w ((A ++ [x]).filter p) ∧
    (if A.isEmpty then 0 else w) ≤ (if (A ++ [x]).isEmpty then 0 else w) ∧
    (if (A ++ [x]).isEmpty then 0 else w) - (if A.isEmpty then 0 else w) ≤
      catScore w ((A ++ [x]).filter p) - catScore w (A.filter p) := by
  have hfa : (A ++ [x]).filter p = A.filter p ++ [x] := by
    simp [List.filter_append, hx]
  have hb' : (if (A ++ [x]).isEmpty then 0 else w) = w := by simp
  have ha' : catScore w ((A ++ [x]).filter p) = w := by
    rw [hfa]
    unfold catScore
    simp
  have ha : catScore w (A.filter p) ≤ w := catScore_le_weight w _
  have hab : catScore w (A.filter p) ≤ (if A.isEmpty then 0 else w) := catScore_le_cat w p A
  have hb : (if A.isEmpty then 0 else w) ≤ w := by split <;> omega
  refine ⟨by omega, by omega, by omega⟩

theorem pyLower_ne_empty (k : String) (h : k ≠ "") : pyLower k ≠ "" := by
  intro he
  apply h
  unfold pyLower at he
  have h2 : k.toList.map Char.toLower = ([] : List Char) := congrArg String.toList he
  have h4 : k.toList = [] := List.map_eq_nil_iff.1 h2
  exact String.ext h4

theorem modelConfidence_keyword_mono (re : String → String → Option Bool)
    (raw hdr : String) (cnpjSet : List String) (d : DetectionRules) (k : String)
    (hk : pyIn (pyLower k) raw = true) :
    modelConfidence re raw hdr cnpjSet d ≤
      modelConfidence re raw hdr cnpjSet { d with keywords := d.keywords ++ [k] } := by
  by_cases hk0 : k = ""
  · have hfl : filterLower (d.keywords ++ [k]) = filterLower d.keywords := by
      subst hk0
      simp [filterLower]
    unfold modelConfidence modelScore modelMaxScore substrMatches cnpjMatches
      headerMatches matchRequiredFields
    dsimp only
    rw [hfl]
  · have hkl : pyLower k ≠ "" := pyLower_ne_empty k hk0
    have hfl : filterLower (d.keywords ++ [k]) = filterLower d.keywords ++ [pyLower k] := by
      simp [filterLower, hk0]
    have hx : (fun s => s ≠ "" && pyIn s raw) (pyLower k) = true := by
      simp [hkl, hk]
    have hcomp := catScore_component 2 (fun s => s ≠ "" && pyIn s raw)
      (filterLower d.keywords) (pyLower k) hx
    unfold modelConfidence
    apply conf_mono_general _ _ _ _ (modelScore_le_max re raw hdr cnpjSet d)
    · unfold modelScore substrMatches
      dsimp only
      rw [hfl]
      have h1 := hcomp.1
      unfold substrMatches at h1
      omega
    · unfold modelMaxScore
      dsimp only
      rw [hfl]
      have h2 := hcomp.2.1
      omega
    · unfold modelScore modelMaxScore substrMatches
      dsimp only
      rw [hfl]
      have h1 := hcomp.1
      have h2 := hcomp.2.1
      have h3 := hcomp.2.2
      unfold substrMatches at h1 h3
      omega

theorem modelConfidence_cnpj_mono (re : String → String → Option Bool)
    (raw hdr : String) (cnpjSet : List String) (d : DetectionRules) (c : String)
    (hc : cnpjSet.contains c = true) :
    modelConfidence re raw hdr cnpjSet d ≤
      modelConfidence re raw hdr cnpjSet { d with customerCnpjs := d.customerCnpjs ++ [c] } := by
  by_cases hc0 : c = ""
  · have hfl : filterTruthy (d.customerCnpjs ++ [c]) = filterTruthy d.customerCnpjs := by
      subst hc0
      simp [filterTruthy]
    unfold modelConfidence modelScore modelMaxScore substrMatches cnpjMatches
      headerMatches matchRequiredFields
    dsimp only
    rw [hfl]
  · have hfl : filterTruthy (d.customerCnpjs ++ [c]) = filterTruthy d.customerCnpjs ++ [c] := by
      simp [filterTruthy, hc0]
    have hx : (fun s => s ≠ "" && cnpjSet.contains s) c = true := by
      simp only [Bool.and_eq_true, decide_eq_true_eq]
      exact ⟨hc0, hc⟩
    have hcomp := catScore_component 3 (fun s => s ≠ "" && cnpjSet.contains s)
      (filterTruthy d.customerCnpjs) c hx
    unfold modelConfidence
    apply conf_mono_general _ _ _ _ (modelScore_le_max re raw hdr cnpjSet d)
    · unfold modelScore cnpjMatches
      dsimp only
      rw [hfl]
      have h1 := hcomp.1
      unfold cnpjMatches at h1
      omega
    · unfold modelMaxScore
      dsimp only
      rw [hfl]
      have h2 := hcomp.2.1
      omega
    · unfold modelScore modelMaxScore cnpjMatches
      dsimp only
      rw [hfl]
      have h1 := hcomp.1
      have h2 := hcomp.2.1
      have h3 := hcomp.2.2
      unfold cnpjMatches at h1 h3
      omega

theorem modelConfidence_header_mono (re : String → String → Option Bool)
    (raw hdr : String) (cnpjSet : List String) (d : DetectionRules) (r : String)
    (hr : re r hdr = some true) :
    modelConfidence re raw hdr cnpjSet d ≤
      modelConfidence re raw hdr cnpjSet { d with headerRegex := d.headerRegex ++ [r] } := by
  by_cases hr0 : r = ""
  · have hfl : filterTruthy (d.headerRegex ++ [r]) = filterTruthy d.headerRegex := by
      subst hr0
      simp [filterTruthy]
    unfold modelConfidence modelScore modelMaxScore substrMatches cnpjMatches
      headerMatches matchRequiredFields
    dsimp only
    rw [hfl]
  · have hfl : filterTruthy (d.headerRegex ++ [r]) = filterTruthy d.headerRegex ++ [r] := by
      simp [filterTruthy, hr0]
    have hx : (fun s => re s hdr == some true) r = true := by
      simp [hr]
    have hcomp := catScore_component 2 (fun s => re s hdr == some true)
      (filterTruthy d.headerRegex) r hx
    unfold modelConfidence
    apply conf_mono_general _ _ _ _ (modelScore_le_max re raw hdr cnpjSet d)
    · unfold modelScore headerMatches
      dsimp only
      rw [hfl]
      have h1 := hcomp.1
      unfold headerMatches at h1
      omega
    · unfold modelMaxScore
      dsimp only
      rw [hfl]
      have h2 := hcomp.2.1
      omega
    · unfold modelScore modelMaxScore headerMatches
      dsimp only
      rw [hfl]
      have h1 := hcomp.1
      have h2 := hcomp.2.1
      have h3 := hcomp.2.2
      unfold headerMatches at h1 h3
      omega

/-- C7: for a fixed parse context (lowered raw text, lowered header
text, cnpj evidence set) and regex oracle, extending a model's rules
with one additional matching signal — a keyword present in the lowered
text, a customer CNPJ present in the extracted set, or a header regex
matching the header region — never decreases that model's computed
confidence `score / max(max_score, 1)`. -/
theorem detector_signal_monotonicity (re : String → String → Option Bool)
    (raw hdr : String) (cnpjSet : List String) (d : DetectionRules) (k c r : String) :
    (pyIn (pyLower k) raw = true →
      modelConfidence re raw hdr cnpjSet d ≤
        modelConfidence re raw hdr cnpjSet { d with keywords := d.keywords ++ [k] }) ∧
    (cnpjSet.contains c = true →
      modelConfidence re raw hdr cnpjSet d ≤
        modelConfidence re raw hdr cnpjSet
          { d with customerCnpjs := d.customerCnpjs ++ [c] }) ∧
    (re r hdr = some true →
      modelConfidence re raw hdr cnpjSet d ≤
        modelConfidence re raw hdr cnpjSet { d with headerRegex := d.headerRegex ++ [r] }) :=
  ⟨modelConfidence_keyword_mono re raw hdr cnpjSet d k,
   modelConfidence_cnpj_mono re raw hdr cnpjSet d c,
   modelConfidence_header_mono re raw hdr cnpjSet d r⟩

/-- Witness for C7 at a concrete input: a model with one unmatched
keyword gains a matching keyword, a matching cnpj and a matching header
regex; the confidence comparisons follow from the claim theorem with all
three hypotheses discharged. -/
theorem detector_signal_monotonicity_witness :
    (modelConfidence (fun _ _ => some true) "pedido de compra" "pedido" ["123"]
        { keywords := ["zzz"] } ≤
      modelConfidence (fun _ _ => some true) "pedido de compra" "pedido" ["123"]
        { keywords := ["zzz", "pedido"] }) ∧
    (modelConfidence (fun _ _ => some true) "pedido de compra" "pedido" ["123"]
        { keywords := ["zzz"] } ≤
      modelConfidence (fun _ _ => some true) "pedido de compra" "pedido" ["123"]
        { keywords := ["zzz"], customerCnpjs := ["123"] }) ∧
    (modelConfidence (fun _ _ => some true) "pedido de compra" "pedido" ["123"]
        { keywords := ["zzz"] } ≤
      modelConfidence (fun _ _ => some true) "pedido de compra" "pedido" ["123"]
        { keywords := ["zzz"], headerRegex := ["^pedido"] }) := by
  have h := detector_signal_monotonicity (fun _ _ => some true) "pedido de compra" "pedido"
    ["123"] { keywords := ["zzz"] } "pedido" "123" "^pedido"
  exact ⟨h.1 (by decide), h.2.1 (by decide), h.2.2 (by decide)⟩

/-!  ### Dict update lemmas (shared by the runner and mapping proofs) -/

theorem lookup_map_set_self (fs : List (String × PV)) (k : String) (v : PV)
    (h : fs.any (fun p => p.1 = k) = true) :
    PV.lookup (fs.map (fun p => if p.1 = k then (k, v) else p)) k = some v := by
  induction fs with
  | nil => simp at h
  | cons a t ih =>
    obtain ⟨l, w⟩ := a
    by_cases ha : l = k
    · subst ha
      simp only [List.map_cons]
      rw [if_pos trivial]
      simp only [PV.lookup]
      exact if_pos trivial
    · simp only [List.map_cons]
      rw [if_neg (by simpa using ha)]
      simp only [PV.lookup]
      rw [if_neg ha]
      apply ih
      simpa [List.any_cons, ha] using h

theorem lookup_map_set_ne (fs : List (String × PV)) (k k' : String) (v : PV)
    (h : k' ≠ k) :
    PV.lookup (fs.map (fun p => if p.1 = k then (k, v) else p)) k' = PV.lookup fs k' := by
  induction fs with
  | nil => rfl
  | cons a t ih =>
    obtain ⟨l, w⟩ := a
    by_cases ha : l = k
    · simp only [List.map_cons]
      rw [if_pos (by simpa using ha)]
      simp only [PV.lookup]
      rw [if_neg (fun he => h he.symm), if_neg (by rw [ha]; exact fun he => h he.symm)]
      exact ih
    · simp only [List.map_cons]
      rw [if_neg (by simpa using ha)]
      simp only [PV.lookup]
      by_cases hak : l = k'
      · rw [if_pos hak, if_pos hak]
      · rw [if_neg hak, if_neg hak]
        exact ih

theorem lookup_eq_none_of_not_any (fs : List (String × PV)) (k : String)
    (h : fs.any (fun p => p.1 = k) = false) : PV.lookup fs k = none := by
  induction fs with
  | nil => rfl
  | cons a t ih =>
    obtain ⟨l, w⟩ := a
    simp only [List.any_cons, Bool.or_eq_false_iff] at h
    simp only [PV.lookup]
    rw [if_neg (by simpa using h.1)]
    exact ih h.2

theorem lookup_append (fs gs : List (String × PV)) (k : String) :
    PV.lookup (fs ++ gs) k = (PV.lookup fs k).or (PV.lookup gs k) := by
  induction fs with
  | nil => rfl
  | cons a t ih =>
    obtain ⟨l, w⟩ := a
    simp only [List.cons_append, PV.lookup]
    by_cases ha : l = k
    · rw [if_pos ha, if_pos ha]
      rfl
    · rw [if_neg ha, if_neg ha]
      exact ih

theorem lookup_assocSet_self (fs : List (String × PV)) (k : String) (v : PV) :
    PV.lookup (assocSet fs k v) k = some v := by
  unfold assocSet
  by_cases h : fs.any (fun p => p.1 = k) = true
  · rw [if_pos h]
    exact lookup_map_set_self fs k v h
  · rw [if_neg h, lookup_append,
      lookup_eq_none_of_not_any fs k (Bool.not_eq_true _ |>.mp h)]
    simp [PV.lookup]

theorem lookup_assocSet_ne (fs : List (String × PV)) (k k' : String) (v : PV)
    (h : k' ≠ k) : PV.lookup (assocSet fs k v) k' = PV.lookup fs k' := by
  unfold assocSet
  by_cases hp : fs.any (fun p => p.1 = k) = true
  · rw [if_pos hp]
    exact lookup_map_set_ne fs k k' v h
  · rw [if_neg hp, lookup_append]
    have h1 : PV.lookup [(k, v)] k' = none := by
      simp only [PV.lookup]
      rw [if_neg (fun he => h he.symm)]
    rw [h1, Option.or_none]

/-!  ### Runner confidence fallback (C2) -/

/-- C2: a non-overridden detection below the threshold is rerouted to the
registered `generic` model (when it exists and differs from the detected
one): the rerouted detection keeps the original confidence, appends the
`fallback:low_confidence` reason, and the runner then marks the canonical
result's parsing status `partial` and appends the explanatory warning. -/
theorem confidence_fallback_reroute (threshold : ℚ) (models : List ModelDefinition)
    (detection : ModelDetection) (model g : ModelDefinition)
    (result : List (String × PV)) (cw : List String) (pfs : List (String × PV))
    (hov : detection.overridden = false)
    (hconf : detection.confidence < threshold)
    (hg : models.find? (fun m => m.modelId = "generic") = some g)
    (hne : model.modelId ≠ "generic")
    (hpd : pyOr ((PV.lookup result "parsing").getD PV.null) (PV.dict []) = PV.dict pfs) :
    ∃ d', applyConfidenceFallback threshold models detection model = some (d', g) ∧
      d'.modelId = "generic" ∧
      d'.confidence = detection.confidence ∧
      d'.reasons = detection.reasons ++ ["fallback:low_confidence"] ∧
      d'.overridden = false ∧
      pvDictGetD ((PV.lookup (applyParsingUpdate d' result cw) "parsing").getD PV.null)
          "status" PV.null = PV.s "partial" ∧
      (∀ ws,
        pyOr (pyOr (pvDictGetD (pvDictGetD (PV.dict result) "parsing" (PV.dict []))
            "warnings" PV.null) (PV.arr (cw.map PV.s))) (PV.arr []) = PV.arr ws →
        pvDictGetD ((PV.lookup (applyParsingUpdate d' result cw) "parsing").getD PV.null)
            "warnings" PV.null = PV.arr (ws ++ [PV.s lowConfidenceWarning])) := by
  have hgid : g.modelId = "generic" := by
    have h1 := List.find?_some hg
    simpa using h1
  have hcond : (!detection.overridden && decide (detection.confidence < threshold)) = true := by
    rw [hov]
    simp [hconf]
  have hres : resolveModel models "generic" = some g := by
    unfold resolveModel
    rw [hg]
  have happly : applyConfidenceFallback threshold models detection model =
      some
        ({ modelId := g.modelId
           confidence := detection.confidence
           reasons := detection.reasons ++ ["fallback:low_confidence"]
           evidence := detection.evidence ++ [⟨"fallback", g.modelId, 0⟩]
           overridden := false }, g) := by
    unfold applyConfidenceFallback
    rw [if_pos hcond, hres]
    dsimp only
    rw [if_pos (by rw [hgid]; exact fun he => hne he.symm)]
  refine ⟨_, happly, hgid, rfl, rfl, rfl, ?_, ?_⟩
  · -- status is partial in the updated result
    unfold applyParsingUpdate
    rw [hpd]
    have hmark : (detection.reasons ++ ["fallback:low_confidence"]).contains
        "fallback:low_confidence" = true := by
      simp
    simp only [hmark, if_true]
    rw [lookup_assocSet_self]
    simp only [Option.getD_some]
    -- the confidence insert keeps a dict, status/warnings are set on it
    by_cases hc : pvDictHasKey (PV.dict pfs) "confidence" = true
    · simp only [hc, Bool.not_true, Bool.false_eq_true, if_false]
      unfold pvDictSet pvDictGetD
      dsimp only
      rw [lookup_assocSet_ne _ _ _ _ (by decide), lookup_assocSet_self]
      rfl
    · simp only [hc, Bool.not_false, if_true]
      unfold pvDictSet pvDictGetD
      dsimp only
      rw [lookup_assocSet_ne _ _ _ _ (by decide), lookup_assocSet_self]
      rfl
  · intro ws hws
    unfold applyParsingUpdate
    rw [hpd]
    have hmark : (detection.reasons ++ ["fallback:low_confidence"]).contains
        "fallback:low_confidence" = true := by
      simp
    simp only [hmark, if_true]
    rw [hws]
    rw [lookup_assocSet_self]
    simp only [Option.getD_some]
    by_cases hc : pvDictHasKey (PV.dict pfs) "confidence" = true
    · simp only [hc, Bool.not_true, Bool.false_eq_true, if_false]
      unfold pvDictSet pvDictGetD
      dsimp only
      rw [lookup_assocSet_self]
      rfl
    · simp only [hc, Bool.not_false, if_true]
      unfold pvDictSet pvDictGetD
      dsimp only
      rw [lookup_assocSet_self]
      rfl

/-- Witness for C2: a detection at confidence 0 (threshold 0.6) on model
`alpha` is rerouted to the registered `generic` model; the parsing dict
gains status `partial` and the explanatory warning. -/
theorem confidence_fallback_reroute_witness :
    ∃ d', applyConfidenceFallback (6 / 10 : ℚ)
        [{ modelId := "generic", label := "G" }]
        { modelId := "alpha", confidence := 0, reasons := ["r"] }
        { modelId := "alpha", label := "A" } =
          some (d', { modelId := "generic", label := "G" }) ∧
      d'.modelId = "generic" ∧
      d'.confidence = 0 ∧
      d'.reasons = ["r", "fallback:low_confidence"] ∧
      pvDictGetD ((PV.lookup (applyParsingUpdate d'
            [("parsing", PV.dict [("warnings", PV.arr [PV.s "w0"])])] []) "parsing").getD
          PV.null) "status" PV.null = PV.s "partial" ∧
      pvDictGetD ((PV.lookup (applyParsingUpdate d'
            [("parsing", PV.dict [("warnings", PV.arr [PV.s "w0"])])] []) "parsing").getD
          PV.null) "warnings" PV.null =
        PV.arr [PV.s "w0", PV.s lowConfidenceWarning] := by
  obtain ⟨d', h1, h2, h3, h4, h5, h6, h7⟩ := confidence_fallback_reroute (6 / 10)
    [{ modelId := "generic", label := "G" }]
    { modelId := "alpha", confidence := 0, reasons := ["r"] }
    { modelId := "alpha", label := "A" } { modelId := "generic", label := "G" }
    [("parsing", PV.dict [("warnings", PV.arr [PV.s "w0"])])] []
    [("warnings", PV.arr [PV.s "w0"])]
    rfl (by norm_num) (by rfl) (by decide) rfl
  refine ⟨d', h1, h2, ?_, ?_, h6, ?_⟩
  · rw [h3]
  · rw [h4]
    rfl
  · exact h7 [PV.s "w0"] rfl

/-!  ### Field-mapping non-override invariant (C5) -/

theorem lookupPath_of_empty (e : PV) (p : List String) (v : PV)
    (hl : lookupPath e p = some v) (he : inEmptyTuple e = true) :
    inEmptyTuple v = true := by
  cases p with
  | nil =>
    have hv : e = v := by
      have : some e = some v := hl
      exact Option.some.inj this
    rw [← hv]
    exact he
  | cons k p3 => cases e <;> simp [lookupPath, inEmptyTuple] at hl he

theorem any_of_lookup_some (fs : List (String × PV)) (k : String) (y : PV)
    (h : PV.lookup fs k = some y) : fs.any (fun p => p.1 = k) = true := by
  induction fs with
  | nil => simp [PV.lookup] at h
  | cons a t ih =>
    obtain ⟨l, w⟩ := a
    simp only [PV.lookup] at h
    by_cases hl : l = k
    · simp [List.any_cons, hl]
    · rw [if_neg hl] at h
      simp [List.any_cons, ih h]

theorem setGo_preserves (value : PV) :
    ∀ (parts : List String) (cur : PV) (p' : List String) (v : PV),
      lookupPath cur p' = some v → inEmptyTuple v = false → notDictObj v = true →
      lookupPath (setGo cur parts value) p' = some v := by
  intro parts
  induction parts with
  | nil => intro cur p' v hl _ _; exact hl
  | cons part rest ih =>
    intro cur p' v hl hne hnd
    cases rest with
    | nil =>
      -- leaf case: setGo cur [part] value
      cases cur with
      | dict fs =>
        simp only [setGo]
        by_cases hemp : inEmptyTuple ((PV.lookup fs part).getD PV.null) = true
        · rw [if_pos hemp]
          cases p' with
          | nil =>
            have hv : PV.dict fs = v := Option.some.inj hl
            rw [← hv] at hnd
            simp [notDictObj] at hnd
          | cons k p'' =>
            simp only [lookupPath] at hl ⊢
            by_cases hk : k = part
            · subst hk
              cases hlk : PV.lookup fs k with
              | none => rw [hlk] at hl; exact absurd hl (by simp)
              | some e =>
                rw [hlk] at hl hemp
                simp only [Option.getD_some] at hemp
                have hv := lookupPath_of_empty e p'' v hl hemp
                rw [hne] at hv
                exact Bool.noConfusion hv
            · rw [lookup_assocSet_ne fs part k value hk]
              exact hl
        · rw [if_neg hemp]
          exact hl
      | obj fs =>
        simp only [setGo]
        by_cases hemp : inEmptyTuple ((PV.lookup fs part).getD PV.null) = true
        · rw [if_pos hemp]
          simp only [pvObjSet]
          by_cases hany : fs.any (fun p => p.1 = part) = true
          · rw [if_pos hany]
            cases p' with
            | nil =>
              have hv : PV.obj fs = v := Option.some.inj hl
              rw [← hv] at hnd
              simp [notDictObj] at hnd
            | cons k p'' =>
              simp only [lookupPath] at hl ⊢
              by_cases hk : k = part
              · subst hk
                cases hlk : PV.lookup fs k with
                | none => rw [hlk] at hl; exact absurd hl (by simp)
                | some e =>
                  rw [hlk] at hl hemp
                  simp only [Option.getD_some] at hemp
                  have hv := lookupPath_of_empty e p'' v hl hemp
                  rw [hne] at hv
                  exact Bool.noConfusion hv
              · rw [lookup_map_set_ne fs part k value hk]
                exact hl
          · rw [if_neg hany]
            exact hl
        · rw [if_neg hemp]
          exact hl
      | null => exact hl
      | b bv => exact hl
      | i n => exact hl
      | f q => exact hl
      | s str => exact hl
      | arr xs => exact hl
    | cons r2 rest2 =>
      -- recursive case: setGo cur (part :: r2 :: rest2) value
      cases cur with
      | dict fs =>
        simp only [setGo]
        cases hlk : PV.lookup fs part with
        | some child =>
          cases p' with
          | nil =>
            have hv : PV.dict fs = v := Option.some.inj hl
            rw [← hv] at hnd
            simp [notDictObj] at hnd
          | cons k p'' =>
            simp only [lookupPath] at hl ⊢
            by_cases hk : k = part
            · subst hk
              rw [hlk] at hl
              rw [lookup_assocSet_self]
              exact ih child p'' v hl hne hnd
            · rw [lookup_assocSet_ne fs part k _ hk]
              exact hl
        | none =>
          cases p' with
          | nil =>
            have hv : PV.dict fs = v := Option.some.inj hl
            rw [← hv] at hnd
            simp [notDictObj] at hnd
          | cons k p'' =>
            simp only [lookupPath] at hl ⊢
            by_cases hk : k = part
            · subst hk
              rw [hlk] at hl
              exact absurd hl (by simp)
            · rw [lookup_assocSet_ne fs part k _ hk]
              exact hl
      | obj fs =>
        simp only [setGo]
        cases hlk : PV.lookup fs part with
        | some child =>
          cases p' with
          | nil =>
            have hv : PV.obj fs = v := Option.some.inj hl
            rw [← hv] at hnd
            simp [notDictObj] at hnd
          | cons k p'' =>
            simp only [lookupPath] at hl ⊢
            by_cases hk : k = part
            · subst hk
              rw [hlk] at hl
              rw [lookup_assocSet_self]
              exact ih child p'' v hl hne hnd
            · rw [lookup_assocSet_ne fs part k _ hk]
              exact hl
        | none => exact hl
      | null => exact hl
      | b bv => exact hl
      | i n => exact hl
      | f q => exact hl
      | s str => exact hl
      | arr xs => exact hl

theorem setGo_notDictObj (cur : PV) (parts : List String) (value : PV)
    (h : notDictObj cur = true) : setGo cur parts value = cur := by
  cases parts with
  | nil => rfl
  | cons p rest =>
    cases rest with
    | nil => cases cur <;> first | rfl | simp [notDictObj] at h
    | cons r2 rest2 => cases cur <;> first | rfl | simp [notDictObj] at h

theorem setAttrIfMissing_preserves (gs : List (String × PV)) (tf f : String)
    (x v : PV) (hlv : PV.lookup gs f = some v) (hne : inEmptyTuple v = false) :
    ∃ hs, setAttrIfMissing (PV.obj gs) tf x = PV.obj hs ∧ PV.lookup hs f = some v := by
  unfold setAttrIfMissing
  by_cases hemp : inEmptyTuple (pvAttr (PV.obj gs) tf) = true
  · rw [if_pos hemp]
    simp only [pvObjSet]
    by_cases hany : gs.any (fun p => p.1 = tf) = true
    · rw [if_pos hany]
      by_cases hf : f = tf
      · subst hf
        simp only [pvAttr, hlv, Option.getD_some] at hemp
        rw [hne] at hemp
        exact Bool.noConfusion hemp
      · exact ⟨_, rfl, by rw [lookup_map_set_ne gs tf f x hf]; exact hlv⟩
    · rw [if_neg hany]
      exact ⟨gs, rfl, hlv⟩
  · rw [if_neg hemp]
    exact ⟨gs, rfl, hlv⟩

theorem setItemsGo_preserves (tf : String) (values : List PV) (f : String) (v : PV)
    (hne : inEmptyTuple v = false) :
    ∀ (xs : List PV) (k idx : ℕ) (gs : List (String × PV)),
      xs.get? idx = some (PV.obj gs) → PV.lookup gs f = some v →
      ∃ hs, (setItemsGo tf values k xs).get? idx = some (PV.obj hs) ∧
        PV.lookup hs f = some v := by
  intro xs
  induction xs with
  | nil => intro k idx gs hx _; simp at hx
  | cons item rest ih =>
    intro k idx gs hx hlv
    cases idx with
    | zero =>
      have hitem : item = PV.obj gs := Option.some.inj hx
      subst hitem
      cases hv : values.get? k with
      | none => exact ⟨gs, by rw [List.get?_eq_getElem?] at hv; simp [setItemsGo, hv], hlv⟩
      | some w =>
        cases w with
        | null => exact ⟨gs, by rw [List.get?_eq_getElem?] at hv; simp [setItemsGo, hv], hlv⟩
        | b bv =>
          obtain ⟨hs, h1, h2⟩ := setAttrIfMissing_preserves gs tf f (PV.b bv) v hlv hne
          exact ⟨hs, by rw [List.get?_eq_getElem?] at hv; simp [setItemsGo, hv, h1], h2⟩
        | i n =>
          obtain ⟨hs, h1, h2⟩ := setAttrIfMissing_preserves gs tf f (PV.i n) v hlv hne
          exact ⟨hs, by rw [List.get?_eq_getElem?] at hv; simp [setItemsGo, hv, h1], h2⟩
        | f q =>
          obtain ⟨hs, h1, h2⟩ := setAttrIfMissing_preserves gs tf f (PV.f q) v hlv hne
          exact ⟨hs, by rw [List.get?_eq_getElem?] at hv; simp [setItemsGo, hv, h1], h2⟩
        | s str =>
          obtain ⟨hs, h1, h2⟩ := setAttrIfMissing_preserves gs tf f (PV.s str) v hlv hne
          exact ⟨hs, by rw [List.get?_eq_getElem?] at hv; simp [setItemsGo, hv, h1], h2⟩
        | arr ys =>
          obtain ⟨hs, h1, h2⟩ := setAttrIfMissing_preserves gs tf f (PV.arr ys) v hlv hne
          exact ⟨hs, by rw [List.get?_eq_getElem?] at hv; simp [setItemsGo, hv, h1], h2⟩
        | dict ds =>
          obtain ⟨hs, h1, h2⟩ := setAttrIfMissing_preserves gs tf f (PV.dict ds) v hlv hne
          exact ⟨hs, by rw [List.get?_eq_getElem?] at hv; simp [setItemsGo, hv, h1], h2⟩
        | obj os =>
          obtain ⟨hs, h1, h2⟩ := setAttrIfMissing_preserves gs tf f (PV.obj os) v hlv hne
          exact ⟨hs, by rw [List.get?_eq_getElem?] at hv; simp [setItemsGo, hv, h1], h2⟩
    | succ n =>
      obtain ⟨hs, h1, h2⟩ := ih (k + 1) n gs hx hlv
      exact ⟨hs, by simpa [setItemsGo] using h1, h2⟩

theorem setGo_preserves_item (value : PV) :
    ∀ (parts : List String) (cur : PV) (idx : ℕ) (f : String) (v : PV),
      itemFieldLookup cur idx f = some v → inEmptyTuple v = false →
      itemFieldLookup (setGo cur parts value) idx f = some v := by
  intro parts cur idx f v hl hne
  have hl0 := hl
  cases cur with
  | null => simp [itemFieldLookup, pvAttr] at hl
  | b bv => simp [itemFieldLookup, pvAttr] at hl
  | i n => simp [itemFieldLookup, pvAttr] at hl
  | f q => simp [itemFieldLookup, pvAttr] at hl
  | s str => simp [itemFieldLookup, pvAttr] at hl
  | arr ys => simp [itemFieldLookup, pvAttr] at hl
  | dict ds => simp [itemFieldLookup, pvAttr] at hl
  | obj gs =>
    simp only [itemFieldLookup, pvAttr] at hl
    cases hli : PV.lookup gs "items" with
    | none => rw [hli] at hl; simp at hl
    | some w =>
      rw [hli] at hl
      cases w with
      | null => simp at hl
      | b bv => simp at hl
      | i n => simp at hl
      | f q => simp at hl
      | s str => simp at hl
      | dict ds => simp at hl
      | obj os => simp at hl
      | arr xs =>
        simp only [Option.getD_some] at hl
        cases hxi : xs.get? idx with
        | none => rw [hxi] at hl; simp at hl
        | some it =>
          rw [hxi] at hl
          cases it with
          | null => simp at hl
          | b bv => simp at hl
          | i n => simp at hl
          | f q => simp at hl
          | s str => simp at hl
          | arr zs => simp at hl
          | dict ds => simp at hl
          | obj fs0 =>
            dsimp only at hl
            -- hl : PV.lookup fs0 f = some v
            cases parts with
            | nil => exact hl0
            | cons part rest =>
              cases rest with
              | nil =>
                simp only [setGo]
                by_cases hemp : inEmptyTuple ((PV.lookup gs part).getD PV.null) = true
                · rw [if_pos hemp]
                  simp only [pvObjSet]
                  by_cases hany : gs.any (fun p => p.1 = part) = true
                  · rw [if_pos hany]
                    by_cases hpi : "items" = part
                    · rw [← hpi] at hemp
                      rw [hli] at hemp
                      simp only [Option.getD_some] at hemp
                      cases xs with
                      | nil => simp at hxi
                      | cons x0 xrest => simp [inEmptyTuple] at hemp
                    · simp only [itemFieldLookup, pvAttr]
                      rw [lookup_map_set_ne gs part "items" value hpi, hli]
                      simp only [Option.getD_some]
                      rw [hxi]
                      exact hl
                  · rw [if_neg hany]
                    exact hl0
                · rw [if_neg hemp]
                  exact hl0
              | cons r2 rest2 =>
                simp only [setGo]
                cases hlp : PV.lookup gs part with
                | none => exact hl0
                | some child =>
                  by_cases hpi : part = "items"
                  · subst hpi
                    have hc : child = PV.arr xs := by
                      rw [hlp] at hli
                      exact Option.some.inj hli
                    subst hc
                    dsimp only
                    rw [setGo_notDictObj _ _ _ (by simp [notDictObj])]
                    simp only [itemFieldLookup, pvAttr, lookup_assocSet_self,
                      Option.getD_some]
                    rw [hxi]
                    exact hl
                  · dsimp only
                    simp only [itemFieldLookup, pvAttr]
                    rw [lookup_assocSet_ne gs part "items" _ (fun he => hpi he.symm),
                      hli]
                    simp only [Option.getD_some]
                    rw [hxi]
                    exact hl

theorem setItems_preserves_path (t : String) (values : List PV) :
    ∀ (canonical : PV) (p : List String) (v : PV),
      lookupPath canonical p = some v → inEmptyTuple v = false →
      notDictObj v = true → (p = ["items"] → isLeafVal v = true) →
      lookupPath (_set_item_values_if_missing canonical t values) p = some v := by
  intro canonical p v hl hne hnd hlf
  simp only [_set_item_values_if_missing]
  cases hin : pyIn "items[]" t with
  | false => exact hl
  | true =>
    rw [if_neg (by decide)]
    cases canonical with
    | null => exact hl
    | b bv => exact hl
    | i n => exact hl
    | f q => exact hl
    | s str => exact hl
    | arr ys => exact hl
    | dict ds => exact hl
    | obj gs =>
      simp only [pvAttr]
      cases hli : PV.lookup gs "items" with
      | none => exact hl
      | some w =>
        cases w with
        | null => exact hl
        | b bv => exact hl
        | i n => exact hl
        | f q => exact hl
        | s str => exact hl
        | dict ds => exact hl
        | obj os => exact hl
        | arr xs =>
          dsimp only [Option.getD_some]
          have hany := any_of_lookup_some gs "items" _ hli
          simp only [pvObjSet]
          rw [if_pos hany]
          cases p with
          | nil =>
            have hv : PV.obj gs = v := Option.some.inj hl
            rw [← hv] at hnd
            simp [notDictObj] at hnd
          | cons k p2 =>
            simp only [lookupPath] at hl ⊢
            by_cases hk : k = "items"
            · subst hk
              rw [lookup_map_set_self gs "items" _ hany]
              rw [hli] at hl
              cases p2 with
              | nil =>
                have hv : PV.arr xs = v := Option.some.inj hl
                have := hlf rfl
                rw [← hv] at this
                simp [isLeafVal] at this
              | cons k2 p3 => simp [lookupPath] at hl
            · rw [lookup_map_set_ne gs "items" k _ hk]
              exact hl

theorem setItems_preserves_item (t : String) (values : List PV) :
    ∀ (canonical : PV) (idx : ℕ) (f : String) (v : PV),
      itemFieldLookup canonical idx f = some v → inEmptyTuple v = false →
      itemFieldLookup (_set_item_values_if_missing canonical t values) idx f = some v := by
  intro canonical idx f v hl hne
  simp only [_set_item_values_if_missing]
  cases hin : pyIn "items[]" t with
  | false => exact hl
  | true =>
    rw [if_neg (by decide)]
    cases canonical with
    | null => exact hl
    | b bv => exact hl
    | i n => exact hl
    | f q => exact hl
    | s str => exact hl
    | arr ys => exact hl
    | dict ds => exact hl
    | obj gs =>
      simp only [pvAttr]
      cases hli : PV.lookup gs "items" with
      | none => exact hl
      | some w =>
        cases w with
        | null => exact hl
        | b bv => exact hl
        | i n => exact hl
        | f q => exact hl
        | s str => exact hl
        | dict ds => exact hl
        | obj os => exact hl
        | arr xs =>
          dsimp only [Option.getD_some]
          have hany := any_of_lookup_some gs "items" _ hli
          simp only [itemFieldLookup, pvAttr, hli, Option.getD_some] at hl
          cases hxi : xs.get? idx with
          | none => rw [hxi] at hl; simp at hl
          | some it =>
            rw [hxi] at hl
            cases it with
            | null => simp at hl
            | b bv => simp at hl
            | i n => simp at hl
            | f q => simp at hl
            | s str => simp at hl
            | arr zs => simp at hl
            | dict ds => simp at hl
            | obj fs0 =>
              dsimp only at hl
              simp only [pvObjSet]
              rw [if_pos hany]
              simp only [itemFieldLookup, pvAttr]
              rw [lookup_map_set_self gs "items" _ hany]
              simp only [Option.getD_some]
              obtain ⟨hs, h1, h2⟩ :=
                setItemsGo_preserves _ values f v hne xs 0 idx fs0 hxi hl
              rw [h1]
              exact h2

theorem preserved_refl (a : PV) : pathsPreserved a a ∧ itemFieldsPreserved a a :=
  ⟨fun _ _ hl _ _ _ => hl, fun _ _ _ hl _ => hl⟩

theorem preserved_trans (a b c : PV)
    (h1 : pathsPreserved a b ∧ itemFieldsPreserved a b)
    (h2 : pathsPreserved b c ∧ itemFieldsPreserved b c) :
    pathsPreserved a c ∧ itemFieldsPreserved a c :=
  ⟨fun p v hl hne hnd hlf => h2.1 p v (h1.1 p v hl hne hnd hlf) hne hnd hlf,
   fun idx f v hl hne => h2.2 idx f v (h1.2 idx f v hl hne) hne⟩

theorem svim_preserved (a : PV) (t : String) (value : PV) :
    pathsPreserved a (_set_value_if_missing a t value) ∧
      itemFieldsPreserved a (_set_value_if_missing a t value) := by
  unfold _set_value_if_missing
  by_cases ht : t = ""
  · rw [if_pos ht]
    exact preserved_refl a
  · rw [if_neg ht]
    exact ⟨fun p v hl hne hnd _ => setGo_preserves value _ a p v hl hne hnd,
      fun idx f v hl hne => setGo_preserves_item value _ a idx f v hl hne⟩

theorem sivim_preserved (a : PV) (t : String) (values : List PV) :
    pathsPreserved a (_set_item_values_if_missing a t values) ∧
      itemFieldsPreserved a (_set_item_values_if_missing a t values) :=
  ⟨fun p v hl hne hnd hlf => setItems_preserves_path t values a p v hl hne hnd hlf,
   fun idx f v hl hne => setItems_preserves_item t values a idx f v hl hne⟩

theorem foldl_preserved {α : Type} (g : PV → α → PV)
    (hg : ∀ (a : PV) (m : α), pathsPreserved a (g a m) ∧ itemFieldsPreserved a (g a m)) :
    ∀ (ms : List α) (a : PV),
      pathsPreserved a (ms.foldl g a) ∧ itemFieldsPreserved a (ms.foldl g a) := by
  intro ms
  induction ms with
  | nil => intro a; exact preserved_refl a
  | cons m rest ih =>
    intro a
    exact preserved_trans a (g a m) _ (hg a m) (ih (g a m))

/-- C5: `apply_mapping_config` never overwrites non-empty data.  Every
non-empty scalar (or, off the root `items` slot, any non-container,
non-empty value) reachable by a dotted path, and every non-empty field
of every line item, survives the whole mapping pass unchanged, for every
canonical tree, legacy payload and mapping config. -/
theorem mapping_config_never_overwrites (canonical legacyOutput : PV)
    (mc : MappingConfig) :
    pathsPreserved canonical (apply_mapping_config canonical legacyOutput mc) ∧
      itemFieldsPreserved canonical (apply_mapping_config canonical legacyOutput mc) := by
  unfold apply_mapping_config
  dsimp only
  refine preserved_trans _ _ _ (foldl_preserved _ ?hg1 mc.fields canonical)
    (foldl_preserved _ ?hg2 mc.itemFields _)
  case hg1 =>
    intro a m
    cases hmt : m.target with
    | none => exact preserved_refl a
    | some t =>
      cases hms : m.source with
      | none => exact preserved_refl a
      | some src =>
        dsimp only
        by_cases hts : t = "" ∨ src = ""
        · rw [if_pos hts]
          exact preserved_refl a
        · rw [if_neg hts]
          cases harg : _apply_transform (_get_value_by_path 1000
              (match legacyOutput with
               | PV.dict fs => pyOr ((PV.lookup fs "result").getD PV.null) legacyOutput
               | _ => pyOr PV.null legacyOutput) src) m.transform with
          | null => exact preserved_refl a
          | b bv => exact svim_preserved a t (PV.b bv)
          | i n => exact svim_preserved a t (PV.i n)
          | f q => exact svim_preserved a t (PV.f q)
          | s str => exact svim_preserved a t (PV.s str)
          | arr ys => exact svim_preserved a t (PV.arr ys)
          | dict ds => exact svim_preserved a t (PV.dict ds)
          | obj os => exact svim_preserved a t (PV.obj os)
  case hg2 =>
    intro a m
    cases hmt : m.target with
    | none => exact preserved_refl a
    | some t =>
      cases hms : m.source with
      | none => exact preserved_refl a
      | some src =>
        dsimp only
        by_cases hts : t = "" ∨ src = ""
        · rw [if_pos hts]
          exact preserved_refl a
        · rw [if_neg hts]
          exact sivim_preserved a t _

theorem mapping_config_never_overwrites_witness :
    lookupPath
        (apply_mapping_config
          (PV.obj [("customer", PV.obj [("name", PV.s "ACME"), ("tax_id", PV.null)]),
            ("items", PV.arr [PV.obj [("sku", PV.s "X"), ("description", PV.null)]])])
          (PV.dict [("customer_name", PV.s "Other")])
          { fields := [{ target := some "customer.name", source := some "customer_name",
                         transform := none }],
            itemFields := [{ target := some "items[].sku", source := some "items[].sku",
                             transform := none }] })
        ["customer", "name"] = some (PV.s "ACME") ∧
      itemFieldLookup
        (apply_mapping_config
          (PV.obj [("customer", PV.obj [("name", PV.s "ACME"), ("tax_id", PV.null)]),
            ("items", PV.arr [PV.obj [("sku", PV.s "X"), ("description", PV.null)]])])
          (PV.dict [("customer_name", PV.s "Other")])
          { fields := [{ target := some "customer.name", source := some "customer_name",
                         transform := none }],
            itemFields := [{ target := some "items[].sku", source := some "items[].sku",
                             transform := none }] })
        0 "sku" = some (PV.s "X") :=
  ⟨(mapping_config_never_overwrites
      (PV.obj [("customer", PV.obj [("name", PV.s "ACME"), ("tax_id", PV.null)]),
        ("items", PV.arr [PV.obj [("sku", PV.s "X"), ("description", PV.null)]])])
      (PV.dict [("customer_name", PV.s "Other")])
      { fields := [{ target := some "customer.name", source := some "customer_name",
                     transform := none }],
        itemFields := [{ target := some "items[].sku", source := some "items[].sku",
                         transform := none }] }).1
    ["customer", "name"] (PV.s "ACME") (by decide) (by decide) (by decide) (by decide),
   (mapping_config_never_overwrites
      (PV.obj [("customer", PV.obj [("name", PV.s "ACME"), ("tax_id", PV.null)]),
        ("items", PV.arr [PV.obj [("sku", PV.s "X"), ("description", PV.null)]])])
      (PV.dict [("customer_name", PV.s "Other")])
      { fields := [{ target := some "customer.name", source := some "customer_name",
                     transform := none }],
        itemFields := [{ target := some "items[].sku", source := some "items[].sku",
                         transform := none }] }).2
    0 "sku" (PV.s "X") (by decide) (by decide)⟩

/-!  ### The schema-version pass-through guard (C6) -/

/-- C6 (corrected): a payload dict that carries `schema_version` skips
the whole legacy normalization: `normalize_legacy_to_canonical` returns
`CanonicalParseResponse.model_validate(payload)` directly, and the
result is independent of every other argument (mapping config, model
name, hashes, timestamps, ...).  The guard is a pass-through to schema
validation, not an identity on the payload. -/
theorem schema_version_guard (args args' : NormArgs) (fs : List (String × PV))
    (h : fs.any (fun p => p.1 = "schema_version") = true) :
    normalize_legacy_to_canonical args (PV.dict fs) =
        modelValidateCanonical (PV.dict fs) ∧
      normalize_legacy_to_canonical args' (PV.dict fs) =
        normalize_legacy_to_canonical args (PV.dict fs) := by
  constructor
  · unfold normalize_legacy_to_canonical
    dsimp only
    rw [if_pos h]
  · unfold normalize_legacy_to_canonical
    dsimp only
    simp only [if_pos h]

theorem schema_version_guard_witness :
    normalize_legacy_to_canonical {}
          (PV.dict [("schema_version", PV.s "1.0"), ("x", PV.i 1)]) =
        modelValidateCanonical (PV.dict [("schema_version", PV.s "1.0"), ("x", PV.i 1)]) ∧
      normalize_legacy_to_canonical { uuid := "ffffffff-0000-0000-0000-000000000000" }
          (PV.dict [("schema_version", PV.s "1.0"), ("x", PV.i 1)]) =
        normalize_legacy_to_canonical {}
          (PV.dict [("schema_version", PV.s "1.0"), ("x", PV.i 1)]) :=
  schema_version_guard {} { uuid := "ffffffff-0000-0000-0000-000000000000" }
    [("schema_version", PV.s "1.0"), ("x", PV.i 1)] (by decide)

/-- A payload bearing `schema_version` is not returned unchanged: the
minimal such dict fails schema validation (its required `document`
field is missing), so the guard raises rather than echoing the
input. -/
theorem schema_version_guard_not_identity :
    normalize_legacy_to_canonical {} (PV.dict [("schema_version", PV.s "1.0")]) =
      Except.error "missing required field: CanonicalOrder.document" := rfl
